import Mathlib

/-!
Verification development for the `translator` repository.

Python strings are modelled as `List Char` (a Python `str` is a sequence of
code points).  Python JSON values (the result of `json.loads`) are modelled by
the inductive type `PyVal`.  Numbers are modelled as integers; float-valued
JSON numbers are outside the model (none of the verified properties involve
them).  Each definition mirrors one function of the source, keeping its name
(snake_case turned lowerCamel where Lean prefers it).  Provenance/telemetry
pass-through fields (`provider`, `model`, `latency_ms`) of the result
dataclasses are omitted: they are copied verbatim from arguments and no
verified property mentions them.
-/

/-- The double-quote character, written via its code point. -/
def quoteChar : Char := Char.ofNat 34

/-- The backslash character. -/
def backslashChar : Char := Char.ofNat 92

/-- The opening-brace character. -/
def lbraceChar : Char := Char.ofNat 123

/-- The closing-brace character. -/
def rbraceChar : Char := Char.ofNat 125

/-- The opening-bracket character. -/
def lbrackChar : Char := Char.ofNat 91

/-- The closing-bracket character. -/
def rbrackChar : Char := Char.ofNat 93

/-- The single-quote character. -/
def squoteChar : Char := Char.ofNat 39

/-- The comma character. -/
def commaChar : Char := Char.ofNat 44

/-- The colon character. -/
def colonChar : Char := Char.ofNat 58

/-- The space character. -/
def spaceChar : Char := Char.ofNat 32

/-- The dash character. -/
def dashChar : Char := Char.ofNat 45

/-- Python `str.strip()` whitespace set (ASCII part; the Unicode extras are
not exercised by any property here). -/
def isPySpace (c : Char) : Bool :=
  c.toNat = 32 ∨ c.toNat = 9 ∨ c.toNat = 10 ∨ c.toNat = 13 ∨ c.toNat = 11 ∨ c.toNat = 12

/-- Python `str.strip()`: drop leading and trailing whitespace. -/
def pyStrip (l : List Char) : List Char :=
  ((l.dropWhile isPySpace).reverse.dropWhile isPySpace).reverse

/-- `s.strip()` at the `String` level. -/
def pyStripS (s : String) : String := String.mk (pyStrip s.data)

/-- Model of `ProviderResponseParseError(message, raw_response=...)` from
`core.py`: a message plus an optional raw-text diagnostic payload. -/
structure PRPError where
  message : List Char
  rawResponse : Option (List Char)
deriving DecidableEq, Repr

/-- Message of the extractor's no-object failure (`core.py` line 34). -/
def notFoundMsg : List Char := "Model did not return a JSON object.".data

/-- Message of the extractor's unterminated failure (`core.py` line 57). -/
def untermMsg : List Char := "Unterminated JSON object in model output.".data

/-- Message of the JSON-parse failure (`core.py` line 65). -/
def parseFailMsg : List Char := "Failed to parse JSON from model output.".data

/-- Message of the non-object failure (`core.py` line 67). -/
def notObjectMsg : List Char := "Expected a JSON object from model output.".data

/-- Message of `_as_translate_result`'s validation failure (`core.py` line 82). -/
def missingTranslationMsg : List Char := "Missing 'translation' in model output.".data

/-- Message of `_as_dictionary_result`'s entries-shape failure (`core.py` line 107). -/
def entriesNotListMsg : List Char := "Expected 'entries' to be a list.".data

/-- Message of `_as_dictionary_result`'s empty-result failure (`core.py` line 135). -/
def noEntriesMsg : List Char := "No dictionary entries produced.".data

/-- The scan loop of `_extract_first_json_object` (`core.py` lines 38-56),
started at the first opening brace.  State: brace depth (`Int`, as Python's
counter), an in-string flag and an escape flag.  Returns the consumed prefix
up to and including the brace that takes the depth back to zero (Python's
`s[start : i + 1]`), or `none` when the input is exhausted first. -/
def scanObj : List Char → Int → Bool → Bool → Option (List Char)
  | [], _, _, _ => none
  | c :: rest, depth, inStr, esc =>
    if inStr then
      if esc then (scanObj rest depth true false).map (c :: ·)
      else if c = backslashChar then (scanObj rest depth true true).map (c :: ·)
      else if c = quoteChar then (scanObj rest depth false false).map (c :: ·)
      else (scanObj rest depth true false).map (c :: ·)
    else if c = quoteChar then (scanObj rest depth true false).map (c :: ·)
    else if c = lbraceChar then (scanObj rest (depth + 1) false false).map (c :: ·)
    else if c = rbraceChar then
      if depth - 1 = 0 then some [c]
      else (scanObj rest (depth - 1) false false).map (c :: ·)
    else (scanObj rest depth false false).map (c :: ·)

/-- `s.find("{")` followed by slicing: returns the suffix of the input that
starts at the first opening brace, or `none` when there is none. -/
def dropToBrace : List Char → Option (List Char)
  | [] => none
  | c :: rest => if c = lbraceChar then some (c :: rest) else dropToBrace rest

/-- `_extract_first_json_object` (`core.py` lines 28-57): trim, fast path when
the trimmed text starts with an opening and ends with a closing brace,
otherwise scan from the first opening brace.  Both failures attach the
original (untrimmed) input as `raw_response`. -/
def extractFirstJsonObject (text : List Char) : Except PRPError (List Char) :=
  let s := pyStrip text
  if s.head? = some lbraceChar ∧ s.getLast? = some rbraceChar then
    .ok s
  else
    match dropToBrace s with
    | none => .error ⟨notFoundMsg, some text⟩
    | some tail =>
      match scanObj tail 0 false false with
      | some obj => .ok obj
      | none => .error ⟨untermMsg, some text⟩

/-- Decimal digit characters, used to render integers. -/
def digitChar (n : Nat) : Char :=
  if n = 0 then Char.ofNat 48
  else if n = 1 then Char.ofNat 49
  else if n = 2 then Char.ofNat 50
  else if n = 3 then Char.ofNat 51
  else if n = 4 then Char.ofNat 52
  else if n = 5 then Char.ofNat 53
  else if n = 6 then Char.ofNat 54
  else if n = 7 then Char.ofNat 55
  else if n = 8 then Char.ofNat 56
  else Char.ofNat 57

/-- Decimal digits, fuelled so that the definition reduces by iota: each
step divides by ten, so `n + 1` units of fuel always suffice. -/
def natDigitsAux : Nat → Nat → List Char
  | 0, _ => []
  | fuel + 1, n =>
    if n < 10 then [digitChar n]
    else natDigitsAux fuel (n / 10) ++ [digitChar (n % 10)]

/-- Decimal digits of a natural number, most significant first. -/
def natDigits (n : Nat) : List Char := natDigitsAux (n + 1) n

/-- Python's decimal rendering of an integer (`str(int)`). -/
def renderInt (i : Int) : List Char :=
  if i < 0 then dashChar :: natDigits i.natAbs else natDigits i.toNat

/-!
`JsonVal` is a JSON value, used to state what "a valid JSON object embedded
in surrounding text" means for the extractor claims.  Strings carry their
unescaped content; numbers are modelled as integers.  The list and object
spines are mutual inductives so that structural induction over rendered
text is available.
-/
mutual
inductive JsonVal where
  | null
  | bool (b : Bool)
  | num (n : Int)
  | str (s : List Char)
  | arr (xs : JsonArr)
  | obj (kvs : JsonMembers)
deriving DecidableEq
inductive JsonArr where
  | nil
  | cons (hd : JsonVal) (tl : JsonArr)
deriving DecidableEq
inductive JsonMembers where
  | nil
  | cons (k : List Char) (v : JsonVal) (tl : JsonMembers)
deriving DecidableEq
end

/-- JSON string escaping of one character: the two characters the extractor's
state machine cares about (`"` and `\`) are escaped, everything else is kept
verbatim (in particular braces inside string content stay raw). -/
def escapeChar (c : Char) : List Char :=
  if c = quoteChar then [backslashChar, quoteChar]
  else if c = backslashChar then [backslashChar, backslashChar]
  else [c]

/-- Escaped body of a JSON string literal. -/
def escapeStr (s : List Char) : List Char := (s.map escapeChar).flatten

/-- A rendered JSON string literal: quote, escaped body, quote. -/
def renderStr (s : List Char) : List Char :=
  quoteChar :: escapeStr s ++ [quoteChar]

/-!
`renderJson` renders a JSON value to its source text.
-/
mutual
def renderJson : JsonVal → List Char
  | .null => "null".data
  | .bool true => "true".data
  | .bool false => "false".data
  | .num n => renderInt n
  | .str s => renderStr s
  | .arr xs => lbrackChar :: renderArr xs ++ [rbrackChar]
  | .obj kvs => lbraceChar :: renderMembers kvs ++ [rbraceChar]
termination_by structural v => v
def renderArr : JsonArr → List Char
  | .nil => []
  | .cons x .nil => renderJson x
  | .cons x (.cons y tl) => renderJson x ++ commaChar :: renderArr (.cons y tl)
termination_by structural xs => xs
def renderMembers : JsonMembers → List Char
  | .nil => []
  | .cons k v .nil => renderStr k ++ colonChar :: renderJson v
  | .cons k v (.cons k2 v2 tl) =>
      renderStr k ++ colonChar :: renderJson v ++ commaChar :: renderMembers (.cons k2 v2 tl)
termination_by structural kvs => kvs
end

/-- A Python value as produced by `json.loads`: `None`, `bool`, `int`, `str`,
`list`, `dict` (float-valued numbers are outside the model). -/
inductive PyVal where
  | none
  | bool (b : Bool)
  | int (n : Int)
  | str (s : List Char)
  | list (xs : List PyVal)
  | dict (kvs : List (List Char × PyVal))

/-!
`pyRepr` models Python's `repr`, and `pyStr` models `str()`.  The only facts
the theorems use about container/number reprs are that they are non-empty and
start with a non-whitespace character, so `repr` of a string is simplified to
plain single quotes without escaping.
-/
/-- `repr` of a Python string (simplified: single quotes, no escaping). -/
def pyReprStr (s : List Char) : List Char := squoteChar :: s ++ [squoteChar]

mutual
def pyRepr : PyVal → List Char
  | .none => "None".data
  | .bool true => "True".data
  | .bool false => "False".data
  | .int n => renderInt n
  | .str s => pyReprStr s
  | .list xs => lbrackChar :: pyReprList xs ++ [rbrackChar]
  | .dict kvs => lbraceChar :: pyReprDict kvs ++ [rbraceChar]
termination_by structural v => v
def pyReprList : List PyVal → List Char
  | [] => []
  | [x] => pyRepr x
  | x :: y :: tl => pyRepr x ++ commaChar :: spaceChar :: pyReprList (y :: tl)
termination_by structural l => l
def pyReprDict : List (List Char × PyVal) → List Char
  | [] => []
  | [(k, v)] => pyReprStr k ++ colonChar :: spaceChar :: pyRepr v
  | (k, v) :: m :: tl =>
      pyReprStr k ++ colonChar :: spaceChar :: pyRepr v ++
        commaChar :: spaceChar :: pyReprDict (m :: tl)
termination_by structural l => l
end

/-- Python `str()` of a value: a string is returned as-is, anything else
falls back to its repr (for `None`/`bool`/`int` this is the exact `str()`
text). -/
def pyStr : PyVal → List Char
  | .str s => s
  | v => pyRepr v

/-- Python truthiness of a value (`bool(v)`), as used by `or` defaults. -/
def pyTruthy : PyVal → Bool
  | .none => false
  | .bool b => b
  | .int n => n ≠ 0
  | .str s => !s.isEmpty
  | .list xs => !xs.isEmpty
  | .dict kvs => !kvs.isEmpty

/-- Python dict lookup on the association list of a (unique-keyed) dict:
`d.get(key)` when the key is present, else `none`. -/
def dLookup : List (List Char × PyVal) → List Char → Option PyVal
  | [], _ => Option.none
  | (k, v) :: rest, key => if k = key then some v else dLookup rest key

/-- The Python membership test `v in (None, "")` used by the coercers:
equality with `None` or with the empty string (no cross-type equalities
arise for these two constants). -/
def isNoneOrEmptyStr : PyVal → Bool
  | .none => true
  | .str [] => true
  | _ => false

/-- `TranslateResult` (`models.py`), without the pass-through telemetry
fields. -/
structure TranslateResult where
  translation : List Char
  alternatives : Option (List (List Char))
  notes : Option (List Char)
  detected_source_lang : Option (List Char)
deriving DecidableEq

/-- `DictionarySense` (`models.py`). -/
structure DictionarySense where
  meaning : List Char
  example_source : Option (List Char)
  example_target : Option (List Char)
  usage_notes : Option (List Char)
deriving DecidableEq

/-- `DictionaryEntry` (`models.py`). -/
structure DictionaryEntry where
  pos : Option (List Char)
  senses : List DictionarySense
deriving DecidableEq

/-- `DictionaryResult` (`models.py`), without the pass-through telemetry
fields. -/
structure DictionaryResult where
  term : List Char
  entries : List DictionaryEntry
deriving DecidableEq

/-- `_coerce_str_list` (`core.py` lines 71-76): `None` stays `None`, a list
is coerced element-wise with `str`, any other shape yields `None`. -/
def coerceStrList : PyVal → Option (List (List Char))
  | .none => Option.none
  | .list xs => some (xs.map pyStr)
  | _ => Option.none

/-- The optional-field pattern of `_as_translate_result` (`core.py` lines
86-89): `str(obj[k]).strip() if obj.get(k) not in (None, "") else None`.
The argument is the result of `obj.get(k)` (`Option.none` when absent). -/
def optTrimField : Option PyVal → Option (List Char)
  | Option.none => Option.none
  | some pv => if isNoneOrEmptyStr pv then Option.none else some (pyStrip (pyStr pv))

/-- The optional-field pattern of `_as_dictionary_result` (`core.py` lines
113 and 127-129): `str(raw[k]) if raw.get(k) not in (None, "") else None` —
same as `optTrimField` but without the trailing `.strip()`. -/
def optStrField : Option PyVal → Option (List Char)
  | Option.none => Option.none
  | some pv => if isNoneOrEmptyStr pv then Option.none else some (pyStr pv)

/-- `json.dumps(obj)` key for `translation`. -/
def translationKey : List Char := "translation".data

/-- Lookup key for `alternatives`. -/
def alternativesKey : List Char := "alternatives".data

/-- Lookup key for `notes`. -/
def notesKey : List Char := "notes".data

/-- Lookup key for `detected_source_lang`. -/
def detectedKey : List Char := "detected_source_lang".data

/-- Lookup key for `term`. -/
def termKey : List Char := "term".data

/-- Lookup key for `entries`. -/
def entriesKey : List Char := "entries".data

/-- Lookup key for `pos`. -/
def posKey : List Char := "pos".data

/-- Lookup key for `senses`. -/
def sensesKey : List Char := "senses".data

/-- Lookup key for `meaning`. -/
def meaningKey : List Char := "meaning".data

/-- Lookup key for `example_source`. -/
def exampleSourceKey : List Char := "example_source".data

/-- Lookup key for `example_target`. -/
def exampleTargetKey : List Char := "example_target".data

/-- Lookup key for `usage_notes`. -/
def usageNotesKey : List Char := "usage_notes".data

/-- Hexadecimal digit characters (lower case), for `\uXXXX` escapes. -/
def hexDigitChar (n : Nat) : Char :=
  if n < 10 then digitChar n
  else if n = 10 then Char.ofNat 97
  else if n = 11 then Char.ofNat 98
  else if n = 12 then Char.ofNat 99
  else if n = 13 then Char.ofNat 100
  else if n = 14 then Char.ofNat 101
  else Char.ofNat 102

/-- A `\uXXXX` escape for a code point (code points above `0xFFFF`, which
Python writes as surrogate pairs, are outside the model's concrete inputs). -/
def uEscape (n : Nat) : List Char :=
  [backslashChar, Char.ofNat 117, hexDigitChar (n / 4096 % 16),
   hexDigitChar (n / 256 % 16), hexDigitChar (n / 16 % 16), hexDigitChar (n % 16)]

/-- `json.dumps` escaping of one string character (default `ensure_ascii`). -/
def jsonEscapeChar (c : Char) : List Char :=
  if c = quoteChar then [backslashChar, quoteChar]
  else if c = backslashChar then [backslashChar, backslashChar]
  else if c.toNat = 10 then [backslashChar, Char.ofNat 110]
  else if c.toNat = 13 then [backslashChar, Char.ofNat 114]
  else if c.toNat = 9 then [backslashChar, Char.ofNat 116]
  else if c.toNat = 8 then [backslashChar, Char.ofNat 98]
  else if c.toNat = 12 then [backslashChar, Char.ofNat 102]
  else if c.toNat < 32 ∨ 127 ≤ c.toNat then uEscape c.toNat
  else [c]

/-!
`jsonDumps` models `json.dumps(v)` with its default separators
(`", "` between items, `": "` after keys).
-/
/-- `json.dumps` of a string value. -/
def jsonDumpsStr (s : List Char) : List Char :=
  quoteChar :: (s.map jsonEscapeChar).flatten ++ [quoteChar]

mutual
def jsonDumps : PyVal → List Char
  | .none => "null".data
  | .bool true => "true".data
  | .bool false => "false".data
  | .int n => renderInt n
  | .str s => jsonDumpsStr s
  | .list xs => lbrackChar :: jsonDumpsList xs ++ [rbrackChar]
  | .dict kvs => lbraceChar :: jsonDumpsMembers kvs ++ [rbraceChar]
termination_by structural v => v
def jsonDumpsList : List PyVal → List Char
  | [] => []
  | [x] => jsonDumps x
  | x :: y :: tl => jsonDumps x ++ commaChar :: spaceChar :: jsonDumpsList (y :: tl)
termination_by structural l => l
def jsonDumpsMembers : List (List Char × PyVal) → List Char
  | [] => []
  | [(k, v)] => jsonDumpsStr k ++ colonChar :: spaceChar :: jsonDumps v
  | (k, v) :: m :: tl =>
      jsonDumpsStr k ++ colonChar :: spaceChar :: jsonDumps v ++
        commaChar :: spaceChar :: jsonDumpsMembers (m :: tl)
termination_by structural l => l
end

/-- `_as_translate_result` (`core.py` lines 79-93): trim
`str(obj.get("translation", ""))`, fail when empty (attaching
`json.dumps(obj)`), otherwise build the result with the permissive optional
fields. -/
def asTranslateResult (obj : List (List Char × PyVal)) : Except PRPError TranslateResult :=
  let translation := pyStrip (pyStr ((dLookup obj translationKey).getD (.str [])))
  if translation.isEmpty then
    .error ⟨missingTranslationMsg, some (jsonDumps (.dict obj))⟩
  else
    .ok { translation := translation
          alternatives := coerceStrList ((dLookup obj alternativesKey).getD .none)
          notes := optTrimField (dLookup obj notesKey)
          detected_source_lang := optTrimField (dLookup obj detectedKey) }

/-- The sense loop body of `_as_dictionary_result` (`core.py` lines 118-131):
skip non-dict elements, skip senses whose trimmed `meaning` is empty,
otherwise build the sense with un-trimmed optional fields. -/
def coerceSense : PyVal → Option DictionarySense
  | .dict skvs =>
    let meaning := pyStrip (pyStr ((dLookup skvs meaningKey).getD (.str [])))
    if meaning.isEmpty then Option.none
    else
      some { meaning := meaning
             example_source := optStrField (dLookup skvs exampleSourceKey)
             example_target := optStrField (dLookup skvs exampleTargetKey)
             usage_notes := optStrField (dLookup skvs usageNotesKey) }
  | _ => Option.none

/-- The entry loop body of `_as_dictionary_result` (`core.py` lines 109-133):
skip non-dict elements, coerce `pos` with the empty-or-absent rule, default
`senses` to an empty list when falsy or not a list, keep the entry only when
at least one sense survives. -/
def coerceEntry : PyVal → Option DictionaryEntry
  | .dict ekvs =>
    let pos := (dLookup ekvs posKey).getD .none
    let posS := if isNoneOrEmptyStr pos then Option.none else some (pyStr pos)
    let sensesV := (dLookup ekvs sensesKey).getD .none
    let sensesRaw := if pyTruthy sensesV then sensesV else .list []
    let sensesList := match sensesRaw with
      | .list l => l
      | _ => []
    let senses := sensesList.filterMap coerceSense
    if senses.isEmpty then Option.none else some { pos := posS, senses := senses }
  | _ => Option.none

/-- `_as_dictionary_result` (`core.py` lines 96-136): coerce `term` with the
request-text fallback, demand a list-shaped (or falsy) `entries`, filter the
entries, and fail when none survive.  Both failures attach
`json.dumps(obj)`. -/
def asDictionaryResult (requestText : List Char) (obj : List (List Char × PyVal)) :
    Except PRPError DictionaryResult :=
  let termV := (dLookup obj termKey).getD .none
  let term := pyStrip (pyStr (if pyTruthy termV then termV else .str requestText))
  let entriesV := (dLookup obj entriesKey).getD .none
  let entriesRaw := if pyTruthy entriesV then entriesV else .list []
  match entriesRaw with
  | .list l =>
    let entries := l.filterMap coerceEntry
    if entries.isEmpty then .error ⟨noEntriesMsg, some (jsonDumps (.dict obj))⟩
    else .ok { term := term, entries := entries }
  | _ => .error ⟨entriesNotListMsg, some (jsonDumps (.dict obj))⟩

/-- JSON document whitespace. -/
def isJsonWs (c : Char) : Bool :=
  c.toNat = 32 ∨ c.toNat = 9 ∨ c.toNat = 10 ∨ c.toNat = 13

/-- Skip JSON whitespace. -/
def skipWs (l : List Char) : List Char := l.dropWhile isJsonWs

/-- Is `c` a decimal digit? -/
def isDigitChar (c : Char) : Bool := 48 ≤ c.toNat ∧ c.toNat ≤ 57

/-- Value of a hexadecimal digit character. -/
def hexVal (c : Char) : Option Nat :=
  if 48 ≤ c.toNat ∧ c.toNat ≤ 57 then some (c.toNat - 48)
  else if 97 ≤ c.toNat ∧ c.toNat ≤ 102 then some (c.toNat - 87)
  else if 65 ≤ c.toNat ∧ c.toNat ≤ 70 then some (c.toNat - 55)
  else Option.none

/-- Parse exactly four hexadecimal digits. -/
def parseHex4 : List Char → Option (Nat × List Char)
  | a :: b :: c :: d :: rest =>
    match hexVal a, hexVal b, hexVal c, hexVal d with
    | some x, some y, some z, some w => some (x * 4096 + y * 256 + z * 16 + w, rest)
    | _, _, _, _ => Option.none
  | _ => Option.none

/-- Body of a JSON string literal, after the opening quote: returns the
decoded content and the remainder after the closing quote.  Raw control
characters are rejected (strict mode); `\uXXXX` decodes to the code point
(lone surrogates, which Python admits, are outside the model's inputs). -/
def jParseString : Nat → List Char → Option (List Char × List Char)
  | 0, _ => Option.none
  | _, [] => Option.none
  | fuel + 1, c :: rest =>
    if c = quoteChar then some ([], rest)
    else if c = backslashChar then
      match rest with
      | [] => Option.none
      | e :: rest2 =>
        if e = quoteChar then (jParseString fuel rest2).map (fun p => (quoteChar :: p.1, p.2))
        else if e = backslashChar then
          (jParseString fuel rest2).map (fun p => (backslashChar :: p.1, p.2))
        else if e.toNat = 47 then (jParseString fuel rest2).map (fun p => (e :: p.1, p.2))
        else if e.toNat = 98 then
          (jParseString fuel rest2).map (fun p => (Char.ofNat 8 :: p.1, p.2))
        else if e.toNat = 102 then
          (jParseString fuel rest2).map (fun p => (Char.ofNat 12 :: p.1, p.2))
        else if e.toNat = 110 then
          (jParseString fuel rest2).map (fun p => (Char.ofNat 10 :: p.1, p.2))
        else if e.toNat = 114 then
          (jParseString fuel rest2).map (fun p => (Char.ofNat 13 :: p.1, p.2))
        else if e.toNat = 116 then
          (jParseString fuel rest2).map (fun p => (Char.ofNat 9 :: p.1, p.2))
        else if e.toNat = 117 then
          match parseHex4 rest2 with
          | some (n, rest3) => (jParseString fuel rest3).map (fun p => (Char.ofNat n :: p.1, p.2))
          | Option.none => Option.none
        else Option.none
    else if c.toNat < 32 then Option.none
    else (jParseString fuel rest).map (fun p => (c :: p.1, p.2))

/-- Numeric value of a digit string. -/
def digitsToNat (l : List Char) : Nat :=
  l.foldl (fun a c => a * 10 + (c.toNat - 48)) 0

/-- Parse a JSON number.  Integer grammar only (`-?(0|[1-9][0-9]*)`); a
following `.`/`e`/`E` makes the parse fail — float-valued numbers are outside
the model. -/
def jParseNumber (l : List Char) : Option (PyVal × List Char) :=
  let (neg, l1) := match l with
    | c :: r => if c = dashChar then (true, r) else (false, l)
    | [] => (false, l)
  match l1 with
  | [] => Option.none
  | c :: _ =>
    if !isDigitChar c then Option.none
    else
      let ds := l1.takeWhile isDigitChar
      let rest := l1.dropWhile isDigitChar
      if 1 < ds.length ∧ ds.head? = some (Char.ofNat 48) then Option.none
      else
        let value : Int := if neg then -(digitsToNat ds : Int) else (digitsToNat ds : Int)
        match rest with
        | [] => some (.int value, [])
        | r :: _ =>
          if r.toNat = 46 ∨ r.toNat = 101 ∨ r.toNat = 69 then Option.none
          else some (.int value, rest)

/-- Insert a key into a Python dict under construction: a duplicate key is
overwritten in place (insertion order preserved), as `dict` does. -/
def dInsert (kvs : List (List Char × PyVal)) (k : List Char) (v : PyVal) :
    List (List Char × PyVal) :=
  if (dLookup kvs k).isSome then
    kvs.map (fun p => if p.1 = k then (k, v) else p)
  else kvs ++ [(k, v)]

/-!
`jParseValue`/`jParseArrayItems`/`jParseObjMembers` form a fuelled
recursive-descent JSON parser producing `PyVal`s, modelling `json.loads`.
-/
mutual
def jParseValue : Nat → List Char → Option (PyVal × List Char)
  | 0, _ => Option.none
  | fuel + 1, l =>
    match skipWs l with
    | [] => Option.none
    | c :: rest =>
      if c = quoteChar then (jParseString (fuel + 1) rest).map (fun p => (.str p.1, p.2))
      else if c = lbraceChar then
        match skipWs rest with
        | d :: rest2 =>
          if d = rbraceChar then some (.dict [], rest2)
          else jParseObjMembers fuel (skipWs rest) []
        | [] => Option.none
      else if c = lbrackChar then
        match skipWs rest with
        | d :: rest2 =>
          if d = rbrackChar then some (.list [], rest2)
          else jParseArrayItems fuel (skipWs rest) []
        | [] => Option.none
      else if List.isPrefixOf "true".data (c :: rest) then
        some (.bool true, (c :: rest).drop 4)
      else if List.isPrefixOf "false".data (c :: rest) then
        some (.bool false, (c :: rest).drop 5)
      else if List.isPrefixOf "null".data (c :: rest) then
        some (.none, (c :: rest).drop 4)
      else jParseNumber (c :: rest)
def jParseArrayItems : Nat → List Char → List PyVal → Option (PyVal × List Char)
  | 0, _, _ => Option.none
  | fuel + 1, l, acc =>
    match jParseValue fuel l with
    | Option.none => Option.none
    | some (v, rest) =>
      match skipWs rest with
      | c :: rest2 =>
        if c = commaChar then jParseArrayItems fuel rest2 (acc ++ [v])
        else if c = rbrackChar then some (.list (acc ++ [v]), rest2)
        else Option.none
      | [] => Option.none
def jParseObjMembers : Nat → List Char → List (List Char × PyVal) →
    Option (PyVal × List Char)
  | 0, _, _ => Option.none
  | fuel + 1, l, acc =>
    match skipWs l with
    | [] => Option.none
    | c :: rest =>
      if c = quoteChar then
        match jParseString (fuel + 1) rest with
        | Option.none => Option.none
        | some (k, rest2) =>
          match skipWs rest2 with
          | [] => Option.none
          | d :: rest3 =>
            if d = colonChar then
              match jParseValue fuel rest3 with
              | Option.none => Option.none
              | some (v, rest4) =>
                match skipWs rest4 with
                | [] => Option.none
                | e :: rest5 =>
                  if e = commaChar then jParseObjMembers fuel rest5 (dInsert acc k v)
                  else if e = rbraceChar then some (.dict (dInsert acc k v), rest5)
                  else Option.none
            else Option.none
      else Option.none
end

/-- `json.loads`, on the integer-only fragment of JSON: parse one value and
require only trailing whitespace after it. -/
def jsonLoads (l : List Char) : Option PyVal :=
  match jParseValue (2 * l.length + 4) l with
  | some (v, rest) => if (skipWs rest).isEmpty then some v else Option.none
  | Option.none => Option.none

/-- `_parse_json` (`core.py` lines 60-68): extract, parse, demand an object.
All three failure sites attach the original `text`. -/
def parseJson (text : List Char) : Except PRPError (List (List Char × PyVal)) :=
  match extractFirstJsonObject text with
  | .error e => .error e
  | .ok blob =>
    match jsonLoads blob with
    | Option.none => .error ⟨parseFailMsg, some text⟩
    | some (.dict kvs) => .ok kvs
    | some _ => .error ⟨notObjectMsg, some text⟩

/-- `OllamaError(message, raw_response=...)` (`ollama.py` lines 12-15). -/
structure OllamaError where
  message : List Char
  rawResponse : Option (List Char)
deriving DecidableEq

/-- Outcome of the underlying `urllib` call in `_http_post_json`
(`ollama.py` lines 29-46) — the network itself is an external collaborator,
so its three outcomes are an input of the model.  `success` carries the 2xx
status and decoded body (`urlopen` raises `HTTPError` for non-2xx statuses);
`httpError` carries the code and the optional error body (`None` when the
error object has no `read`); `urlError` carries the failure text. -/
inductive NetOutcome where
  | success (status : Nat) (body : List Char)
  | httpError (code : Nat) (body : Option (List Char))
  | urlError (msg : List Char)
deriving DecidableEq

/-- `_http_post_json`'s mapping of the network outcome: an `HTTPError`
becomes an `OllamaError` carrying the error body (`""` when absent) and a
`URLError` becomes an `OllamaError` carrying **no** raw payload. -/
def httpPostJson : NetOutcome → Except OllamaError (Nat × List Char)
  | .success status body => .ok (status, body)
  | .httpError code body =>
      .error ⟨"Ollama HTTP ".data ++ natDigits code, some (body.getD [])⟩
  | .urlError msg => .error ⟨"Failed to reach Ollama: ".data ++ msg, Option.none⟩

/-- Message of the malformed-envelope failure (`ollama.py` lines 82/117),
without the interpolated status. -/
def invalidEnvelopeMsg : List Char := "Invalid JSON from Ollama".data

/-- The response-envelope handling of `chat_json` (`ollama.py` lines 76-82):
`obj.get("message", {}).get("content", "")`.  A body that does not parse as
JSON, a non-dict body, or a present non-dict `message` value (whose `.get`
raises, caught by the blanket `except`) is an `OllamaError` carrying the raw
body; a missing `message` or `content` silently defaults. -/
def chatContent (raw : List Char) : Except OllamaError PyVal :=
  match jsonLoads raw with
  | Option.none => .error ⟨invalidEnvelopeMsg, some raw⟩
  | some (.dict kvs) =>
    match (dLookup kvs "message".data).getD (.dict []) with
    | .dict m => .ok ((dLookup m "content".data).getD (.str []))
    | _ => .error ⟨invalidEnvelopeMsg, some raw⟩
  | some _ => .error ⟨invalidEnvelopeMsg, some raw⟩

/-- The response-envelope handling of `generate_json` (`ollama.py` lines
111-117): `obj.get("response", "")`, with the same failure behaviour as
`chatContent`. -/
def generateContent (raw : List Char) : Except OllamaError PyVal :=
  match jsonLoads raw with
  | Option.none => .error ⟨invalidEnvelopeMsg, some raw⟩
  | some (.dict kvs) => .ok ((dLookup kvs "response".data).getD (.str []))
  | some _ => .error ⟨invalidEnvelopeMsg, some raw⟩

/-- `Mode` (`models.py`). -/
inductive Mode where
  | translate
  | dictionary
deriving DecidableEq

/-- `RerunStyle` (`models.py`). -/
inductive RerunStyle where
  | retry
  | more_literal
  | more_natural
deriving DecidableEq

/-- `RerunHint` (`models.py`). -/
structure RerunHint where
  style : RerunStyle
deriving DecidableEq

/-- `TranslateRequest` (`models.py`).  `seed` and `temperature` are omitted:
they are passed through to the transport options only and no verified
property mentions them. -/
structure TranslateRequest where
  text : String
  source_lang : String
  target_lang : String
  mode : Mode
  tone : String
  tone_instructions : Option String
  explain_lang : String
  rerun : Option RerunHint
deriving DecidableEq

/-- The quote character Python's `repr` picks for a string: a double quote
when the text contains a single quote but no double quote, a single quote
otherwise. -/
def pyReprQuoteChar (s : List Char) : Char :=
  if s.contains squoteChar ∧ ¬(s.contains quoteChar) then quoteChar else squoteChar

/-- The hex escape Python's `repr` writes for a non-printable code point:
`\xXX`, `\uXXXX` or `\UXXXXXXXX` by magnitude (lower-case hex digits). -/
def reprHexEscape (n : Nat) : List Char :=
  if n < 256 then
    [backslashChar, Char.ofNat 120, hexDigitChar (n / 16 % 16), hexDigitChar (n % 16)]
  else if n < 65536 then uEscape n
  else
    [backslashChar, Char.ofNat 85,
     hexDigitChar (n / 268435456 % 16), hexDigitChar (n / 16777216 % 16),
     hexDigitChar (n / 1048576 % 16), hexDigitChar (n / 65536 % 16),
     hexDigitChar (n / 4096 % 16), hexDigitChar (n / 256 % 16),
     hexDigitChar (n / 16 % 16), hexDigitChar (n % 16)]

/-- Python `repr` escaping of one string character, given the chosen quote:
backslash and the quote are backslash-escaped, tab/newline/return get their
short escapes, printable ASCII is kept verbatim, and anything else is
hex-escaped.  (Python keeps printable non-ASCII verbatim and hex-escapes
only non-printable code points; the model hex-escapes everything above
`0x7e` — the divergence only swaps verbatim text for escape text on
characters no theorem hypothesis admits.) -/
def pyReprEscChar (q c : Char) : List Char :=
  if c = backslashChar then [backslashChar, backslashChar]
  else if c = q then [backslashChar, q]
  else if c.toNat = 9 then [backslashChar, Char.ofNat 116]
  else if c.toNat = 10 then [backslashChar, Char.ofNat 110]
  else if c.toNat = 13 then [backslashChar, Char.ofNat 114]
  else if 32 ≤ c.toNat ∧ c.toNat ≤ 126 then [c]
  else reprHexEscape c.toNat

/-- Python `repr` of a string, as interpolated by the `!r` format spec in
`prompting.py` line 9: chosen quote, escaped body, chosen quote. -/
def pyReprString (s : List Char) : List Char :=
  let q := pyReprQuoteChar s
  q :: (s.map (pyReprEscChar q)).flatten ++ [q]

/-- The tone line of `build_system_prompt` (`prompting.py` lines 7-9):
the extra sentence is appended only when `tone_instructions` is truthy
(present and non-empty), and interpolates the instruction text with `!r`
(its Python repr). -/
def toneLineOf (request : TranslateRequest) : String :=
  let t := "Tone/style: " ++ request.tone ++ "."
  match request.tone_instructions with
  | Option.none => t
  | some ti =>
    if ti = "" then t
    else t ++ " Additional instructions: " ++ String.mk (pyReprString ti.data) ++ "."

/-- The shared preamble of `build_system_prompt` (`prompting.py` lines
11-16). -/
def basePrompt : String :=
  "You are a high-precision translation engine.\n" ++
  "- Preserve meaning, numbers, and proper nouns.\n" ++
  "- Preserve line breaks and punctuation when reasonable.\n" ++
  "- Do not add commentary outside the required JSON.\n"

/-- The dictionary-mode tail of `build_system_prompt` (`prompting.py` lines
24-41): task line plus the literal JSON key schema. -/
def dictSchemaPrompt : String :=
  "Task: Return dictionary-style entries with multiple senses.\n" ++
  "Output: JSON only, matching this schema:\n" ++
  "\x7b\n" ++
  "  \"term\": string,\n" ++
  "  \"entries\": [\n" ++
  "    \x7b\n" ++
  "      \"pos\": string | null,\n" ++
  "      \"senses\": [\n" ++
  "        \x7b\n" ++
  "          \"meaning\": string,\n" ++
  "          \"example_source\": string | null,\n" ++
  "          \"example_target\": string | null,\n" ++
  "          \"usage_notes\": string | null\n" ++
  "        \x7d\n" ++
  "      ]\n" ++
  "    \x7d\n" ++
  "  ]\n" ++
  "\x7d\n"

/-- The rerun hint line (`prompting.py` lines 44-51); empty when no hint. -/
def rerunLineOf (request : TranslateRequest) : String :=
  match request.rerun with
  | Option.none => ""
  | some hint =>
    match hint.style with
    | .more_literal => "Regeneration hint: make it more literal (closer to source wording)."
    | .more_natural =>
        "Regeneration hint: make it more natural (native phrasing) while preserving meaning."
    | .retry => "Regeneration hint: try a different valid translation."

/-- The translate-mode tail of `build_system_prompt` (`prompting.py` lines
59-69): the literal JSON key schema plus the notes-language line. -/
def translateSchemaPrompt (explainLang : String) : String :=
  "Output: JSON only, matching this schema:\n" ++
  "\x7b\n" ++
  "  \"translation\": string,\n" ++
  "  \"alternatives\": string[] | null,\n" ++
  "  \"notes\": string | null,\n" ++
  "  \"detected_source_lang\": string | null\n" ++
  "\x7d\n" ++
  "If the source language is ambiguous, set detected_source_lang to null and explain briefly in notes.\n" ++
  "Notes language: " ++ explainLang ++ ".\n"

/-- `build_system_prompt` (`prompting.py` lines 6-70). -/
def buildSystemPrompt (request : TranslateRequest) : String :=
  match request.mode with
  | .dictionary => basePrompt ++ "\n" ++ toneLineOf request ++ "\n" ++ dictSchemaPrompt
  | .translate =>
    let rerunLine := rerunLineOf request
    basePrompt ++ "\n" ++ toneLineOf request ++
      (if rerunLine ≠ "" then "\n" ++ rerunLine else "") ++ "\n" ++
      translateSchemaPrompt request.explain_lang

/-- `build_user_prompt` (`prompting.py` lines 73-89). -/
def buildUserPrompt (request : TranslateRequest) : String :=
  match request.mode with
  | .dictionary =>
    "Explain and translate as a dictionary entry.\n" ++
    "Target language for meanings/examples: " ++ request.target_lang ++ ".\n" ++
    "Term: " ++ pyStripS request.text ++ "\n"
  | .translate =>
    "Translate the text.\n" ++
    "Source language: " ++ request.source_lang ++ ".\n" ++
    "Target language: " ++ request.target_lang ++ ".\n" ++
    "Text:\n" ++ request.text ++ "\n"

/-- The two result shapes `translate_text` can return. -/
inductive CoreResult where
  | translate (r : TranslateResult)
  | dictionary (r : DictionaryResult)
deriving DecidableEq

/-- The post-exchange tail of `translate_text` (`core.py` lines 167-172):
parse the content, then coerce according to the request mode. -/
def processContent (mode : Mode) (requestText : List Char) (content : List Char) :
    Except PRPError CoreResult :=
  match parseJson content with
  | .error e => .error e
  | .ok obj =>
    match mode with
    | .dictionary => (asDictionaryResult requestText obj).map .dictionary
    | .translate => (asTranslateResult obj).map .translate

/-- The errors `translate_text` can propagate: the configuration check, an
`OllamaError` from the (fallback) transport, or a
`ProviderResponseParseError` from the parse/coerce stages. -/
inductive TopError where
  | config (msg : List Char)
  | transport (e : OllamaError)
  | pipeline (e : PRPError)
deriving DecidableEq

/-- `translate_text` (`core.py` lines 139-172).  The two transport calls are
external collaborators, abstracted as oracles from their prompt inputs to
either content or an `OllamaError`: `chatOracle` stands for the whole
`chat_json` exchange and `genOracle` for `generate_json`.  The `try/except
OllamaError` around the structured call becomes the match on the oracle's
result; the fallback prompt is the system and user prompts joined by a blank
line. -/
def translateText (providerName : String) (request : TranslateRequest)
    (chatOracle : String → String → Except OllamaError String)
    (genOracle : String → Except OllamaError String) : Except TopError CoreResult :=
  if providerName ≠ "ollama" then
    .error (.config "Unsupported provider".data)
  else
    let system := buildSystemPrompt request
    let user := buildUserPrompt request
    let contentE : Except OllamaError String :=
      match chatOracle system user with
      | .ok content => .ok content
      | .error _ => genOracle (system ++ "\n\n" ++ user)
    match contentE with
    | .error e => .error (.transport e)
    | .ok content =>
      (processContent request.mode request.text.data content.data).mapError .pipeline

/-- A character that the scanner treats as inert outside strings. -/
def plainChar (c : Char) : Bool :=
  ¬(c = quoteChar ∨ c = backslashChar ∨ c = lbraceChar ∨ c = rbraceChar)

theorem option_map_cons_append (o : Option (List Char)) (c : Char) (l : List Char) :
    (o.map (l ++ ·)).map (c :: ·) = o.map ((c :: l) ++ ·) := by
  cases o <;> simp

theorem scanObj_cons_other (c : Char) (hq : c ≠ quoteChar) (hl : c ≠ lbraceChar)
    (hr : c ≠ rbraceChar) (rest : List Char) (d : Int) :
    scanObj (c :: rest) d false false = (scanObj rest d false false).map (c :: ·) := by
  simp [scanObj, hq, hl, hr]

theorem scanObj_cons_quote (rest : List Char) (d : Int) :
    scanObj (quoteChar :: rest) d false false = (scanObj rest d true false).map (quoteChar :: ·) := by
  simp [scanObj]

theorem scanObj_cons_lbrace (rest : List Char) (d : Int) :
    scanObj (lbraceChar :: rest) d false false =
      (scanObj rest (d + 1) false false).map (lbraceChar :: ·) := by
  simp [scanObj, (by decide : ¬(lbraceChar = quoteChar))]

theorem scanObj_cons_rbrace_go (rest : List Char) (d : Int) (h : ¬(d - 1 = 0)) :
    scanObj (rbraceChar :: rest) d false false =
      (scanObj rest (d - 1) false false).map (rbraceChar :: ·) := by
  simp [scanObj, (by decide : ¬(rbraceChar = quoteChar)),
    (by decide : ¬(rbraceChar = lbraceChar)), h]

theorem scanObj_cons_rbrace_done (rest : List Char) (d : Int) (h : d - 1 = 0) :
    scanObj (rbraceChar :: rest) d false false = some [rbraceChar] := by
  simp [scanObj, (by decide : ¬(rbraceChar = quoteChar)),
    (by decide : ¬(rbraceChar = lbraceChar)), h]

theorem scanObj_str_other (c : Char) (hb : c ≠ backslashChar) (hq : c ≠ quoteChar)
    (rest : List Char) (d : Int) :
    scanObj (c :: rest) d true false = (scanObj rest d true false).map (c :: ·) := by
  simp [scanObj, hb, hq]

theorem scanObj_str_backslash (rest : List Char) (d : Int) :
    scanObj (backslashChar :: rest) d true false =
      (scanObj rest d true true).map (backslashChar :: ·) := by
  simp [scanObj]

theorem scanObj_str_esc (c : Char) (rest : List Char) (d : Int) :
    scanObj (c :: rest) d true true = (scanObj rest d true false).map (c :: ·) := by
  simp [scanObj]

theorem scanObj_str_quote (rest : List Char) (d : Int) :
    scanObj (quoteChar :: rest) d true false =
      (scanObj rest d false false).map (quoteChar :: ·) := by
  simp [scanObj, (by decide : ¬(quoteChar = backslashChar))]

/-- Plain text passes through the scanner unchanged. -/
theorem scan_plain (l : List Char) (hp : ∀ c ∈ l, plainChar c = true) (rest : List Char)
    (d : Int) :
    scanObj (l ++ rest) d false false = (scanObj rest d false false).map (l ++ ·) := by
  induction l with
  | nil => simp
  | cons c t ih =>
    have hc : plainChar c = true := hp c (List.mem_cons_self c t)
    have hq : c ≠ quoteChar := by
      intro h
      simp [plainChar, h] at hc
    have hb : c ≠ lbraceChar := by
      intro h
      simp [plainChar, h] at hc
    have hr : c ≠ rbraceChar := by
      intro h
      simp [plainChar, h] at hc
    rw [List.cons_append, scanObj_cons_other c hq hb hr,
      ih (fun x hx => hp x (List.mem_cons_of_mem c hx)), option_map_cons_append]

/-- The escaped body of a string literal passes through the scanner in
string mode: braces do not touch the depth and escaped quotes do not leave
string mode. -/
theorem scan_string_body (s : List Char) (rest : List Char) (d : Int) :
    scanObj (escapeStr s ++ rest) d true false =
      (scanObj rest d true false).map (escapeStr s ++ ·) := by
  induction s with
  | nil => simp [escapeStr]
  | cons c t ih =>
    have hesc : escapeStr (c :: t) = escapeChar c ++ escapeStr t := by
      simp [escapeStr]
    by_cases hq : c = quoteChar
    · subst hq
      have h2 : escapeChar quoteChar = [backslashChar, quoteChar] := by
        simp [escapeChar]
      rw [hesc, h2]
      simp only [List.cons_append, List.nil_append, List.append_assoc]
      rw [scanObj_str_backslash, scanObj_str_esc, ih, option_map_cons_append,
        option_map_cons_append]
      cases scanObj rest d true false <;> simp
    · by_cases hb : c = backslashChar
      · subst hb
        have h2 : escapeChar backslashChar = [backslashChar, backslashChar] := by
          simp [escapeChar, (by decide : ¬(backslashChar = quoteChar))]
        rw [hesc, h2]
        simp only [List.cons_append, List.nil_append, List.append_assoc]
        rw [scanObj_str_backslash, scanObj_str_esc, ih, option_map_cons_append,
          option_map_cons_append]
        cases scanObj rest d true false <;> simp
      · have h2 : escapeChar c = [c] := by
          simp [escapeChar, hq, hb]
        rw [hesc, h2]
        simp only [List.cons_append, List.nil_append]
        rw [scanObj_str_other c hb hq, ih, option_map_cons_append]
        cases scanObj rest d true false <;> simp

/-- A whole rendered string literal passes through the scanner. -/
theorem scan_renderStr (s : List Char) (rest : List Char) (d : Int) :
    scanObj (renderStr s ++ rest) d false false =
      (scanObj rest d false false).map (renderStr s ++ ·) := by
  have h1 : renderStr s ++ rest = quoteChar :: (escapeStr s ++ (quoteChar :: rest)) := by
    simp [renderStr]
  rw [h1, scanObj_cons_quote, scan_string_body, scanObj_str_quote]
  cases scanObj rest d false false <;> simp [renderStr]

theorem digitChar_plain (n : Nat) : plainChar (digitChar n) = true := by
  unfold digitChar
  repeat' split
  all_goals decide

theorem natDigitsAux_plain (fuel n : Nat) : ∀ c ∈ natDigitsAux fuel n, plainChar c = true := by
  induction fuel generalizing n with
  | zero => simp [natDigitsAux]
  | succ fuel ih =>
    intro c hc
    rw [natDigitsAux] at hc
    by_cases h : n < 10
    · simp [h] at hc
      rw [hc]
      exact digitChar_plain n
    · simp [h] at hc
      rcases hc with hc | hc
      · exact ih (n / 10) c hc
      · rw [hc]
        exact digitChar_plain (n % 10)

theorem natDigits_plain (n : Nat) : ∀ c ∈ natDigits n, plainChar c = true :=
  natDigitsAux_plain (n + 1) n

theorem renderInt_plain (i : Int) : ∀ c ∈ renderInt i, plainChar c = true := by
  intro c hc
  rw [renderInt] at hc
  by_cases h : i < 0
  · simp [h] at hc
    rcases hc with hc | hc
    · rw [hc]
      decide
    · exact natDigits_plain _ c hc
  · simp [h] at hc
    exact natDigits_plain _ c hc

/-!
The central lemmas for the extractor claim: a rendered JSON value passes
through the scanner without triggering a return while the depth stays at
least 1, and the scanner stops exactly at the closing brace of a top-level
rendered object.
-/
mutual
theorem scan_renderJson : ∀ (v : JsonVal) (rest : List Char) (d : Int), 1 ≤ d →
    scanObj (renderJson v ++ rest) d false false =
      (scanObj rest d false false).map (renderJson v ++ ·)
  | .null, rest, d, _ => by
    rw [renderJson, scan_plain "null".data (by decide)]
  | .bool true, rest, d, _ => by
    rw [renderJson, scan_plain "true".data (by decide)]
  | .bool false, rest, d, _ => by
    rw [renderJson, scan_plain "false".data (by decide)]
  | .num n, rest, d, _ => by
    rw [renderJson, scan_plain (renderInt n) (renderInt_plain n)]
  | .str s, rest, d, _ => by
    rw [renderJson, scan_renderStr]
  | .arr xs, rest, d, hd => by
    have h1 : renderJson (.arr xs) ++ rest =
        lbrackChar :: (renderArr xs ++ ([rbrackChar] ++ rest)) := by
      simp [renderJson]
    rw [h1, scanObj_cons_other lbrackChar (by decide) (by decide) (by decide),
      scan_renderArr xs ([rbrackChar] ++ rest) d hd, List.singleton_append,
      scanObj_cons_other rbrackChar (by decide) (by decide) (by decide)]
    cases scanObj rest d false false <;> simp [renderJson]
  | .obj kvs, rest, d, hd => by
    have h1 : renderJson (.obj kvs) ++ rest =
        lbraceChar :: (renderMembers kvs ++ ([rbraceChar] ++ rest)) := by
      simp [renderJson]
    have hne : ¬(d + 1 - 1 = 0) := by omega
    have heq : d + 1 - 1 = d := by omega
    rw [h1, scanObj_cons_lbrace,
      scan_renderMembers kvs ([rbraceChar] ++ rest) (d + 1) (by omega),
      List.singleton_append, scanObj_cons_rbrace_go rest (d + 1) hne, heq]
    cases scanObj rest d false false <;> simp [renderJson]
theorem scan_renderArr : ∀ (xs : JsonArr) (rest : List Char) (d : Int), 1 ≤ d →
    scanObj (renderArr xs ++ rest) d false false =
      (scanObj rest d false false).map (renderArr xs ++ ·)
  | .nil, rest, d, _ => by
    simp [renderArr]
  | .cons x .nil, rest, d, hd => by
    rw [renderArr, scan_renderJson x rest d hd]
  | .cons x (.cons y tl), rest, d, hd => by
    have h1 : renderArr (.cons x (.cons y tl)) ++ rest =
        renderJson x ++ (commaChar :: (renderArr (.cons y tl) ++ rest)) := by
      simp [renderArr]
    rw [h1, scan_renderJson x _ d hd,
      scanObj_cons_other commaChar (by decide) (by decide) (by decide),
      scan_renderArr (.cons y tl) rest d hd]
    cases scanObj rest d false false <;> simp [renderArr]
theorem scan_renderMembers : ∀ (kvs : JsonMembers) (rest : List Char) (d : Int), 1 ≤ d →
    scanObj (renderMembers kvs ++ rest) d false false =
      (scanObj rest d false false).map (renderMembers kvs ++ ·)
  | .nil, rest, d, _ => by
    simp [renderMembers]
  | .cons k v .nil, rest, d, hd => by
    have h1 : renderMembers (.cons k v .nil) ++ rest =
        renderStr k ++ (colonChar :: (renderJson v ++ rest)) := by
      simp [renderMembers]
    rw [h1, scan_renderStr,
      scanObj_cons_other colonChar (by decide) (by decide) (by decide),
      scan_renderJson v rest d hd]
    cases scanObj rest d false false <;> simp [renderMembers]
  | .cons k v (.cons k2 v2 tl), rest, d, hd => by
    have h1 : renderMembers (.cons k v (.cons k2 v2 tl)) ++ rest =
        renderStr k ++ (colonChar ::
          (renderJson v ++ (commaChar :: (renderMembers (.cons k2 v2 tl) ++ rest)))) := by
      simp [renderMembers]
    rw [h1, scan_renderStr,
      scanObj_cons_other colonChar (by decide) (by decide) (by decide),
      scan_renderJson v _ d hd,
      scanObj_cons_other commaChar (by decide) (by decide) (by decide),
      scan_renderMembers (.cons k2 v2 tl) rest d hd]
    cases scanObj rest d false false <;> simp [renderMembers]
end

/-- The scanner applied to a rendered top-level object (followed by
anything) stops exactly at the object's closing brace and returns exactly
the rendered object. -/
theorem scan_render_obj_top (kvs : JsonMembers) (rest : List Char) :
    scanObj (renderJson (.obj kvs) ++ rest) 0 false false =
      some (renderJson (.obj kvs)) := by
  have h1 : renderJson (.obj kvs) ++ rest =
      lbraceChar :: (renderMembers kvs ++ ([rbraceChar] ++ rest)) := by
    simp [renderJson]
  rw [h1, scanObj_cons_lbrace,
    scan_renderMembers kvs ([rbraceChar] ++ rest) (0 + 1) (by omega),
    List.singleton_append, scanObj_cons_rbrace_done rest (0 + 1) (by omega)]
  simp [renderJson]

theorem dropWhile_sandwich (p : Char → Bool) (u : List Char) (a : Char) (v : List Char)
    (ha : p a = false) :
    List.dropWhile p (u ++ a :: v) = List.dropWhile p u ++ a :: v := by
  induction u with
  | nil =>
    simp [List.dropWhile_cons, ha]
  | cons c t ih =>
    by_cases hc : p c
    · simp [List.dropWhile_cons, hc, ih]
    · simp [List.dropWhile_cons, hc]

/-- Stripping text around a block whose first and last characters are not
whitespace strips only the surrounding text. -/
theorem pyStrip_sandwich (p : List Char) (a : Char) (mid : List Char) (b : Char)
    (q : List Char) (ha : isPySpace a = false) (hb : isPySpace b = false) :
    pyStrip (p ++ (a :: mid ++ [b]) ++ q) =
      List.dropWhile isPySpace p ++ (a :: mid ++ [b]) ++
        (List.dropWhile isPySpace q.reverse).reverse := by
  unfold pyStrip
  have h1 : p ++ (a :: mid ++ [b]) ++ q = p ++ a :: (mid ++ [b] ++ q) := by
    simp
  rw [h1, dropWhile_sandwich isPySpace p a _ ha]
  have h2 : (List.dropWhile isPySpace p ++ a :: (mid ++ [b] ++ q)).reverse =
      q.reverse ++ b :: ((a :: mid).reverse ++ (List.dropWhile isPySpace p).reverse) := by
    simp
  rw [h2, dropWhile_sandwich isPySpace q.reverse b _ hb]
  simp

theorem dropToBrace_skip (u : List Char) (hu : ∀ c ∈ u, ¬(c = lbraceChar)) (v : List Char) :
    dropToBrace (u ++ lbraceChar :: v) = some (lbraceChar :: v) := by
  induction u with
  | nil => simp [dropToBrace]
  | cons c t ih =>
    rw [List.cons_append, dropToBrace, if_neg (hu c (List.mem_cons_self c t))]
    exact ih (fun x hx => hu x (List.mem_cons_of_mem c hx))

theorem dropToBrace_eq_none_iff (l : List Char) :
    dropToBrace l = none ↔ ∀ c ∈ l, ¬(c = lbraceChar) := by
  induction l with
  | nil => simp [dropToBrace]
  | cons c t ih =>
    rw [dropToBrace]
    by_cases hc : c = lbraceChar
    · simp [hc]
    · simp [hc, ih]

theorem mem_of_mem_dropWhile {p : Char → Bool} {l : List Char} {c : Char}
    (h : c ∈ List.dropWhile p l) : c ∈ l :=
  (List.dropWhile_sublist p).mem h

theorem mem_of_mem_rstrip {l : List Char} {c : Char}
    (h : c ∈ (List.dropWhile isPySpace l.reverse).reverse) : c ∈ l := by
  rw [List.mem_reverse] at h
  have := mem_of_mem_dropWhile h
  rwa [List.mem_reverse] at this


/-- Auxiliary for C1: whenever the brace-start/brace-end fast-path condition
fails on the stripped text `p1 ++ renderJson (.obj kvs) ++ q1` with `p1`
free of opening braces, the scan path returns exactly the rendered object. -/
theorem extract_scan_path (p1 q1 : List Char) (kvs : JsonMembers)
    (hp1 : ∀ c ∈ p1, ¬(c = lbraceChar)) :
    dropToBrace (p1 ++ renderJson (.obj kvs) ++ q1) =
      some (renderJson (.obj kvs) ++ q1) ∧
    scanObj (renderJson (.obj kvs) ++ q1) 0 false false =
      some (renderJson (.obj kvs)) := by
  constructor
  · have hform : p1 ++ renderJson (.obj kvs) ++ q1 =
        p1 ++ lbraceChar :: (renderMembers kvs ++ [rbraceChar] ++ q1) := by
      rw [renderJson]
      simp
    rw [hform, dropToBrace_skip p1 hp1]
    rw [renderJson]
    simp
  · exact scan_render_obj_top kvs q1

/-- C1: for every input built from a valid JSON object with arbitrary
non-brace text before and after it (string values inside the object may
contain braces and escaped quotes), the extractor returns exactly the
object's text, byte for byte; and whenever the trimmed input starts with an
opening and ends with a closing brace, the trimmed text is returned
unchanged. -/
theorem claim_C1 :
    (∀ (p q : List Char) (kvs : JsonMembers),
       (∀ c ∈ p, ¬(c = lbraceChar) ∧ ¬(c = rbraceChar)) →
       (∀ c ∈ q, ¬(c = lbraceChar) ∧ ¬(c = rbraceChar)) →
       extractFirstJsonObject (p ++ renderJson (.obj kvs) ++ q) =
         .ok (renderJson (.obj kvs))) ∧
    (∀ text : List Char, (pyStrip text).head? = some lbraceChar →
       (pyStrip text).getLast? = some rbraceChar →
       extractFirstJsonObject text = .ok (pyStrip text)) := by
  constructor
  · intro p q kvs hp hq
    have hj : renderJson (.obj kvs) = lbraceChar :: renderMembers kvs ++ [rbraceChar] := by
      rw [renderJson]
    have hstrip : pyStrip (p ++ renderJson (.obj kvs) ++ q) =
        List.dropWhile isPySpace p ++ renderJson (.obj kvs) ++
          (List.dropWhile isPySpace q.reverse).reverse := by
      rw [hj]
      exact pyStrip_sandwich p lbraceChar (renderMembers kvs) rbraceChar q
        (by decide) (by decide)
    set p1 := List.dropWhile isPySpace p with hp1def
    set q1 := (List.dropWhile isPySpace q.reverse).reverse with hq1def
    have hp1mem : ∀ c ∈ p1, ¬(c = lbraceChar) := by
      intro c hc
      rw [hp1def] at hc
      exact (hp c (mem_of_mem_dropWhile hc)).1
    have hq1mem : ∀ c ∈ q1, ¬(c = rbraceChar) := by
      intro c hc
      rw [hq1def] at hc
      exact (hq c (mem_of_mem_rstrip hc)).2
    simp only [extractFirstJsonObject, hstrip]
    by_cases hcond : ((p1 ++ renderJson (.obj kvs) ++ q1).head? = some lbraceChar ∧
        (p1 ++ renderJson (.obj kvs) ++ q1).getLast? = some rbraceChar)
    · have hp1nil : p1 = [] := by
        rcases hp2 : p1 with _ | ⟨c, t⟩
        · rfl
        · exfalso
          have hcmem : c ∈ p1 := by
            rw [hp2]
            exact List.mem_cons_self c t
          have hclb : c = lbraceChar := by
            have hh := hcond.1
            rw [hp2] at hh
            simpa using hh
          exact hp1mem c hcmem hclb
      have hq1nil : q1 = [] := by
        rcases hq2 : q1 with _ | ⟨d, u⟩
        · rfl
        · exfalso
          have hne : (d :: u) ≠ [] := by simp
          have hh := hcond.2
          rw [hq2] at hh
          have hlast : ((p1 ++ renderJson (.obj kvs)) ++ (d :: u)).getLast? =
              some ((d :: u).getLast hne) := by
            rw [List.getLast?_append, List.getLast?_eq_getLast (d :: u) hne]
            simp
          rw [hlast] at hh
          have heq : (d :: u).getLast hne = rbraceChar := Option.some.inj hh
          have hmem : (d :: u).getLast hne ∈ q1 := by
            rw [hq2]
            exact List.getLast_mem hne
          exact hq1mem _ hmem heq
      rw [if_pos hcond, hp1nil, hq1nil]
      simp
    · rw [if_neg hcond]
      obtain ⟨hdrop, hscan⟩ := extract_scan_path p1 q1 kvs hp1mem
      simp only [hdrop, hscan]
  · intro text h1 h2
    simp only [extractFirstJsonObject]
    rw [if_pos (And.intro h1 h2)]

theorem extract_error_raw (text : List Char) (e : PRPError)
    (h : extractFirstJsonObject text = .error e) : e.rawResponse = some text := by
  simp only [extractFirstJsonObject] at h
  split at h
  · simp at h
  · split at h
    · injection h with h2
      rw [← h2]
    · split at h
      · simp at h
      · injection h with h2
        rw [← h2]

theorem mem_of_head?_eq {l : List Char} {c : Char} (h : l.head? = some c) : c ∈ l := by
  cases l with
  | nil => simp at h
  | cons a t =>
    simp at h
    rw [h]
    exact List.mem_cons_self c t

/-- C8: extraction fails in exactly two distinguishable conditions — the
no-opening-brace condition, reported whenever the stripped input has no
opening brace, and the unterminated condition, reported when a brace was
found but the scan exhausts the input; both failures carry the original raw
input, and the two messages are distinct. -/
theorem claim_C8 :
    (∀ text : List Char, (∀ c ∈ pyStrip text, ¬(c = lbraceChar)) →
       extractFirstJsonObject text = .error ⟨notFoundMsg, some text⟩) ∧
    (∀ (text : List Char) (e : PRPError), extractFirstJsonObject text = .error e →
       (e = ⟨notFoundMsg, some text⟩ ∧ ∀ c ∈ pyStrip text, ¬(c = lbraceChar)) ∨
       (e = ⟨untermMsg, some text⟩ ∧ ∃ tail, dropToBrace (pyStrip text) = some tail ∧
          scanObj tail 0 false false = none)) ∧
    ¬(notFoundMsg = untermMsg) := by
  refine ⟨?_, ?_, by decide⟩
  · intro text hnb
    have hhead : ¬((pyStrip text).head? = some lbraceChar ∧
        (pyStrip text).getLast? = some rbraceChar) := by
      intro hc
      exact hnb lbraceChar (mem_of_head?_eq hc.1) rfl
    have hdrop : dropToBrace (pyStrip text) = none :=
      (dropToBrace_eq_none_iff (pyStrip text)).mpr hnb
    simp only [extractFirstJsonObject]
    rw [if_neg hhead, hdrop]
  · intro text e h
    simp only [extractFirstJsonObject] at h
    split at h
    · simp at h
    · rename_i hcond
      split at h
      · rename_i hdrop
        injection h with h2
        left
        exact ⟨h2.symm, (dropToBrace_eq_none_iff (pyStrip text)).mp hdrop⟩
      · rename_i tail hdrop
        split at h
        · simp at h
        · rename_i hscan
          injection h with h2
          right
          exact ⟨h2.symm, tail, hdrop, hscan⟩

theorem asTranslateResult_error_raw (obj : List (List Char × PyVal)) (e : PRPError)
    (h : asTranslateResult obj = .error e) :
    e.rawResponse = some (jsonDumps (.dict obj)) := by
  simp only [asTranslateResult] at h
  split at h
  · injection h with h2
    rw [← h2]
  · simp at h

theorem asDictionaryResult_error_raw (requestText : List Char)
    (obj : List (List Char × PyVal)) (e : PRPError)
    (h : asDictionaryResult requestText obj = .error e) :
    e.rawResponse = some (jsonDumps (.dict obj)) := by
  simp only [asDictionaryResult] at h
  split at h
  · split at h
    · injection h with h2
      rw [← h2]
    · simp at h
  · injection h with h2
    rw [← h2]

theorem parseJson_error_raw (text : List Char) (e : PRPError)
    (h : parseJson text = .error e) : e.rawResponse = some text := by
  simp only [parseJson] at h
  split at h
  · rename_i e2 hex
    injection h with h2
    rw [← h2]
    exact extract_error_raw text e2 hex
  · split at h
    · injection h with h2
      rw [← h2]
    · simp at h
    · injection h with h2
      rw [← h2]

theorem chatContent_error_raw (raw : List Char) (e : OllamaError)
    (h : chatContent raw = .error e) : e.rawResponse = some raw := by
  simp only [chatContent] at h
  split at h
  · injection h with h2
    rw [← h2]
  · split at h
    · simp at h
    · injection h with h2
      rw [← h2]
  · injection h with h2
    rw [← h2]

theorem generateContent_error_raw (raw : List Char) (e : OllamaError)
    (h : generateContent raw = .error e) : e.rawResponse = some raw := by
  simp only [generateContent] at h
  split at h
  · injection h with h2
    rw [← h2]
  · simp at h
  · injection h with h2
    rw [← h2]

/-- C5 (amended): extraction and parse errors carry the original raw model
output; the coercion (validation) errors carry a `json.dumps` re-serialization
of the parsed object, not the original raw text; the HTTP-status and
malformed-envelope transport errors carry the raw response body; the
unreachable-host transport error carries no raw payload at all. -/
theorem claim_C5 :
    (∀ (text : List Char) (e : PRPError), parseJson text = .error e →
       e.rawResponse = some text) ∧
    (∀ (obj : List (List Char × PyVal)) (e : PRPError),
       asTranslateResult obj = .error e →
       e.rawResponse = some (jsonDumps (.dict obj))) ∧
    (∀ (requestText : List Char) (obj : List (List Char × PyVal)) (e : PRPError),
       asDictionaryResult requestText obj = .error e →
       e.rawResponse = some (jsonDumps (.dict obj))) ∧
    (∀ (raw : List Char) (e : OllamaError), chatContent raw = .error e →
       e.rawResponse = some raw) ∧
    (∀ (raw : List Char) (e : OllamaError), generateContent raw = .error e →
       e.rawResponse = some raw) ∧
    (∀ (code : Nat) (body : Option (List Char)), ∃ e,
       httpPostJson (.httpError code body) = .error e ∧
       e.rawResponse = some (body.getD [])) ∧
    (∀ msg : List Char, ∃ e, httpPostJson (.urlError msg) = .error e ∧
       e.rawResponse = Option.none) :=
  ⟨parseJson_error_raw, asTranslateResult_error_raw, asDictionaryResult_error_raw,
   chatContent_error_raw, generateContent_error_raw,
   fun code body => ⟨_, rfl, rfl⟩, fun msg => ⟨_, rfl, rfl⟩⟩

/-- C5 is false as stated: on the model output
`Sure! {"translation": ""}` the validation error's payload is the
re-serialized parsed object, which differs from the original raw model
output; and the unreachable-host transport error carries no raw text. -/
theorem claim_C5_counterexample :
    processContent .translate "Hello".data "Sure! \x7b\"translation\": \"\"\x7d".data =
      .error ⟨missingTranslationMsg, some "\x7b\"translation\": \"\"\x7d".data⟩ ∧
    ¬((some "\x7b\"translation\": \"\"\x7d".data : Option (List Char)) =
      some "Sure! \x7b\"translation\": \"\"\x7d".data) ∧
    httpPostJson (.urlError "connection refused".data) =
      .error ⟨"Failed to reach Ollama: ".data ++ "connection refused".data, Option.none⟩ := by
  refine ⟨?_, by decide, rfl⟩
  rfl

theorem natDigitsAux_ne_nil (fuel n : Nat) (h : 0 < fuel) : ¬(natDigitsAux fuel n = []) := by
  cases fuel with
  | zero => omega
  | succ fuel =>
    rw [natDigitsAux]
    by_cases h10 : n < 10
    · simp [h10]
    · simp [h10]

theorem natDigits_ne_nil (n : Nat) : ¬(natDigits n = []) :=
  natDigitsAux_ne_nil (n + 1) n (by omega)

theorem renderInt_ne_nil (i : Int) : ¬(renderInt i = []) := by
  rw [renderInt]
  by_cases h : i < 0
  · simp [h]
  · simp [h]
    exact natDigits_ne_nil i.toNat

theorem pyStr_eq_nil_iff (v : PyVal) : pyStr v = [] ↔ v = PyVal.str [] := by
  cases v with
  | none => exact iff_of_false (by decide) (by intro h; cases h)
  | bool b => cases b <;> exact iff_of_false (by decide) (by intro h; cases h)
  | int n => exact iff_of_false (renderInt_ne_nil n) (by intro h; cases h)
  | str s => simp [pyStr]
  | list xs => exact iff_of_false (by simp [pyStr, pyRepr]) (by intro h; cases h)
  | dict kvs => exact iff_of_false (by simp [pyStr, pyRepr]) (by intro h; cases h)

theorem pyStrip_eq_nil_iff (l : List Char) :
    pyStrip l = [] ↔ ∀ c ∈ l, isPySpace c = true := by
  unfold pyStrip
  rw [List.reverse_eq_nil_iff, List.dropWhile_eq_nil_iff]
  constructor
  · intro h c hc
    have hdec := List.takeWhile_append_dropWhile isPySpace l
    rw [← hdec] at hc
    rcases List.mem_append.mp hc with hc2 | hc2
    · exact List.mem_takeWhile_imp hc2
    · exact h c (List.mem_reverse.mpr hc2)
  · intro h c hc
    exact h c (mem_of_mem_dropWhile (List.mem_reverse.mp hc))

theorem natDigitsAux_digit (fuel n : Nat) : ∀ c ∈ natDigitsAux fuel n, isDigitChar c = true := by
  induction fuel generalizing n with
  | zero => simp [natDigitsAux]
  | succ fuel ih =>
    intro c hc
    rw [natDigitsAux] at hc
    have hdigit : ∀ m : Nat, isDigitChar (digitChar m) = true := by
      intro m
      unfold digitChar
      repeat' split
      all_goals decide
    by_cases h : n < 10
    · simp [h] at hc
      rw [hc]
      exact hdigit n
    · simp [h] at hc
      rcases hc with hc | hc
      · exact ih (n / 10) c hc
      · rw [hc]
        exact hdigit (n % 10)

theorem digit_not_space (c : Char) (h : isDigitChar c = true) : isPySpace c = false := by
  simp [isDigitChar] at h
  simp [isPySpace]
  omega

/-- `str()` of a non-string value never strips to the empty string: its text
starts with a letter, bracket, brace, minus sign or digit. -/
theorem nonstr_pyStr_strip_ne_nil (v : PyVal) (hv : ∀ s, ¬(v = PyVal.str s)) :
    ¬(pyStrip (pyStr v) = []) := by
  intro h
  rw [pyStrip_eq_nil_iff] at h
  cases v with
  | none => exact absurd (h (Char.ofNat 78) (by decide)) (by decide)
  | bool b =>
    cases b with
    | true => exact absurd (h (Char.ofNat 84) (by decide)) (by decide)
    | false => exact absurd (h (Char.ofNat 70) (by decide)) (by decide)
  | int n =>
    have hps : pyStr (.int n) = renderInt n := rfl
    rw [hps, renderInt] at h
    by_cases hneg : n < 0
    · rw [if_pos hneg] at h
      exact absurd (h dashChar (List.mem_cons_self dashChar _)) (by decide)
    · rw [if_neg hneg] at h
      rcases hnd : natDigits n.toNat with _ | ⟨c, t⟩
      · exact natDigits_ne_nil n.toNat hnd
      · have hcmem : c ∈ natDigits n.toNat := by
          rw [hnd]
          exact List.mem_cons_self c t
        have := h c (by rw [hnd] at hcmem ⊢; exact hcmem)
        rw [digit_not_space c (natDigitsAux_digit (n.toNat + 1) n.toNat c hcmem)] at this
        cases this
  | str s => exact hv s rfl
  | list xs =>
    have hps : pyStr (.list xs) = lbrackChar :: (pyReprList xs ++ [rbrackChar]) := rfl
    rw [hps] at h
    exact absurd (h lbrackChar (List.mem_cons_self lbrackChar _)) (by decide)
  | dict kvs =>
    have hps : pyStr (.dict kvs) = lbraceChar :: (pyReprDict kvs ++ [rbraceChar]) := rfl
    rw [hps] at h
    exact absurd (h lbraceChar (List.mem_cons_self lbraceChar _)) (by decide)

theorem optStrField_ne_some_nil (o : Option PyVal) : ¬(optStrField o = some []) := by
  cases o with
  | none => simp [optStrField]
  | some pv =>
    rw [optStrField]
    by_cases h : isNoneOrEmptyStr pv
    · simp [h]
    · simp [h]
      intro hc
      rw [pyStr_eq_nil_iff] at hc
      rw [hc] at h
      exact h rfl

theorem optTrimField_some_nil (o : Option PyVal) (h : optTrimField o = some []) :
    ∃ s, o = some (PyVal.str s) ∧ ¬(s = []) ∧ pyStrip s = [] := by
  cases o with
  | none => simp [optTrimField] at h
  | some pv =>
    rw [optTrimField] at h
    by_cases hn : isNoneOrEmptyStr pv
    · simp [hn] at h
    · simp [hn] at h
      cases pv with
      | none => exact absurd rfl hn
      | bool b => exact absurd h (nonstr_pyStr_strip_ne_nil (.bool b) (fun s hc => by cases hc))
      | int n => exact absurd h (nonstr_pyStr_strip_ne_nil (.int n) (fun s hc => by cases hc))
      | str s =>
        refine ⟨s, rfl, ?_, h⟩
        intro hnil
        rw [hnil] at hn
        exact hn rfl
      | list xs => exact absurd h (nonstr_pyStr_strip_ne_nil (.list xs) (fun s hc => by cases hc))
      | dict kvs => exact absurd h (nonstr_pyStr_strip_ne_nil (.dict kvs) (fun s hc => by cases hc))

/-- C3: translate-mode coercion fails exactly when the `translation` field is
absent or is a string that trims to empty; on success the result holds the
trimmed value and the `alternatives` coercion; a non-sequence `alternatives`
value yields null rather than an error; the two concrete examples of the
spec behave as stated. -/
theorem claim_C3 :
    (∀ obj : List (List Char × PyVal),
       (∃ e, asTranslateResult obj = .error e) ↔
         (dLookup obj translationKey = Option.none ∨
          ∃ s, dLookup obj translationKey = some (.str s) ∧ pyStrip s = [])) ∧
    (∀ (obj : List (List Char × PyVal)) (r : TranslateResult),
       asTranslateResult obj = .ok r →
       r.translation = pyStrip (pyStr ((dLookup obj translationKey).getD (.str []))) ∧
       r.alternatives = coerceStrList ((dLookup obj alternativesKey).getD .none)) ∧
    (∀ v : PyVal, (∀ xs, ¬(v = PyVal.list xs)) → coerceStrList v = Option.none) ∧
    asTranslateResult [(translationKey, .str [])] =
      .error ⟨missingTranslationMsg,
        some (jsonDumps (.dict [(translationKey, .str [])]))⟩ ∧
    (asTranslateResult [(translationKey, .str "  hi  ".data)]).map
      (fun r => r.translation) = .ok "hi".data := by
  refine ⟨?_, ?_, ?_, rfl, rfl⟩
  · intro obj
    constructor
    · rintro ⟨e, he⟩
      simp only [asTranslateResult] at he
      split at he
      · rename_i hemp
        rw [List.isEmpty_iff] at hemp
        rcases hlk : dLookup obj translationKey with _ | pv
        · exact Or.inl rfl
        · rw [hlk, Option.getD_some] at hemp
          cases pv with
          | none =>
            exact absurd hemp (nonstr_pyStr_strip_ne_nil .none (fun s hc => by cases hc))
          | bool b =>
            exact absurd hemp (nonstr_pyStr_strip_ne_nil (.bool b) (fun s hc => by cases hc))
          | int n =>
            exact absurd hemp (nonstr_pyStr_strip_ne_nil (.int n) (fun s hc => by cases hc))
          | str s => exact Or.inr ⟨s, rfl, hemp⟩
          | list xs =>
            exact absurd hemp (nonstr_pyStr_strip_ne_nil (.list xs) (fun s hc => by cases hc))
          | dict kvs =>
            exact absurd hemp (nonstr_pyStr_strip_ne_nil (.dict kvs) (fun s hc => by cases hc))
      · simp at he
    · intro hcase
      have hempty : pyStrip (pyStr ((dLookup obj translationKey).getD (.str []))) = [] := by
        rcases hcase with hnone | ⟨s, hs, hstrip⟩
        · rw [hnone]
          rfl
        · rw [hs, Option.getD_some]
          exact hstrip
      refine ⟨⟨missingTranslationMsg, some (jsonDumps (.dict obj))⟩, ?_⟩
      simp only [asTranslateResult]
      rw [if_pos (List.isEmpty_iff.mpr hempty)]
  · intro obj r h
    simp only [asTranslateResult] at h
    split at h
    · simp at h
    · injection h with h2
      rw [← h2]
      exact ⟨rfl, rfl⟩
  · intro v hv
    cases v with
    | list xs => exact absurd rfl (hv xs)
    | none => rfl
    | bool b => rfl
    | int n => rfl
    | str s => rfl
    | dict kvs => rfl

/-- C7 is false as stated: a whitespace-only `notes` value passes the
`not in (None, "")` check and is then trimmed to the empty string, so the
result holds `notes` as a present empty string. -/
theorem claim_C7_counterexample :
    asTranslateResult [(translationKey, .str "hi".data), (notesKey, .str [spaceChar])] =
      .ok { translation := "hi".data, alternatives := Option.none,
            notes := some [], detected_source_lang := Option.none } := rfl

theorem ifNoneEmpty_ne_some_nil (pos : PyVal) :
    ¬((if isNoneOrEmptyStr pos then Option.none else some (pyStr pos)) = some []) := by
  by_cases h : isNoneOrEmptyStr pos
  · simp [h]
  · simp [h]
    intro hc
    rw [pyStr_eq_nil_iff] at hc
    rw [hc] at h
    exact h rfl

theorem coerceSense_some (sv : PyVal) (s : DictionarySense) (h : coerceSense sv = some s) :
    ¬(s.meaning = []) ∧ ¬(s.example_source = some []) ∧ ¬(s.example_target = some []) ∧
      ¬(s.usage_notes = some []) := by
  cases sv with
  | dict skvs =>
    simp only [coerceSense] at h
    split at h
    · simp at h
    · rename_i hmne
      injection h with h2
      rw [← h2]
      refine ⟨?_, optStrField_ne_some_nil _, optStrField_ne_some_nil _,
        optStrField_ne_some_nil _⟩
      simp only []
      intro hc
      rw [← List.isEmpty_iff] at hc
      exact hmne hc
  | none => simp [coerceSense] at h
  | bool b => simp [coerceSense] at h
  | int n => simp [coerceSense] at h
  | str s2 => simp [coerceSense] at h
  | list xs => simp [coerceSense] at h

theorem coerceEntry_some (v : PyVal) (e : DictionaryEntry) (h : coerceEntry v = some e) :
    ¬(e.pos = some []) ∧ ¬(e.senses = []) ∧
      ∀ s ∈ e.senses, ∃ sv, coerceSense sv = some s := by
  cases v with
  | dict ekvs =>
    simp only [coerceEntry] at h
    split at h
    all_goals
      split at h
      · simp at h
      · rename_i hne
        injection h with h2
        rw [← h2]
        refine ⟨ifNoneEmpty_ne_some_nil _, ?_, ?_⟩
        · simp only []
          intro hc
          rw [← List.isEmpty_iff] at hc
          exact hne hc
        · intro s hs
          simp only [] at hs
          rcases List.mem_filterMap.mp hs with ⟨sv, _, hsv⟩
          exact ⟨sv, hsv⟩
  | none => simp [coerceEntry] at h
  | bool b => simp [coerceEntry] at h
  | int n => simp [coerceEntry] at h
  | str s2 => simp [coerceEntry] at h
  | list xs => simp [coerceEntry] at h

/-- C7 (amended): in every coerced result the optional fields `pos`,
`example_source`, `example_target` and `usage_notes` are absent or non-empty
(they are taken verbatim, untrimmed), and `meaning`/`translation` are
non-empty; the trimmed fields `notes` and `detected_source_lang` can be
present-and-empty, but only when the raw field value was a non-empty string
consisting entirely of whitespace. -/
theorem claim_C7 :
    (∀ (text : List Char) (obj : List (List Char × PyVal)) (r : DictionaryResult),
       asDictionaryResult text obj = .ok r →
       ∀ e ∈ r.entries, ¬(e.pos = some []) ∧
         ∀ s ∈ e.senses, ¬(s.meaning = []) ∧ ¬(s.example_source = some []) ∧
           ¬(s.example_target = some []) ∧ ¬(s.usage_notes = some [])) ∧
    (∀ (obj : List (List Char × PyVal)) (r : TranslateResult),
       asTranslateResult obj = .ok r →
       ¬(r.translation = []) ∧
       (r.notes = some [] →
          ∃ s, dLookup obj notesKey = some (.str s) ∧ ¬(s = []) ∧ pyStrip s = []) ∧
       (r.detected_source_lang = some [] →
          ∃ s, dLookup obj detectedKey = some (.str s) ∧ ¬(s = []) ∧ pyStrip s = [])) := by
  constructor
  · intro text obj r h
    simp only [asDictionaryResult] at h
    split at h
    · split at h
      · simp at h
      · injection h with h2
        intro e he
        rw [← h2] at he
        simp only at he
        rcases List.mem_filterMap.mp he with ⟨v, _, hv⟩
        obtain ⟨hpos, _, hsense⟩ := coerceEntry_some v e hv
        refine ⟨hpos, ?_⟩
        intro s hs
        obtain ⟨sv, hsv⟩ := hsense s hs
        exact coerceSense_some sv s hsv
    · simp at h
  · intro obj r h
    simp only [asTranslateResult] at h
    split at h
    · simp at h
    · rename_i htne
      injection h with h2
      rw [← h2]
      refine ⟨?_, ?_, ?_⟩
      · simp only []
        intro hc
        rw [← List.isEmpty_iff] at hc
        exact htne hc
      · intro hn
        exact optTrimField_some_nil _ hn
      · intro hn
        exact optTrimField_some_nil _ hn

/-- C2: a sense is discarded exactly when its `meaning` is missing or trims
to empty; discarded senses and entries drop out of the retained sequences
without affecting the rest; every successful dictionary coercion has a
non-empty entry list whose entries all kept at least one sense; when
`entries` resolves to a list, coercion fails with the `no entries` validation
error exactly when no entry survives; and the spec's concrete example fails
that way. -/
theorem claim_C2 :
    (∀ skvs : List (List Char × PyVal),
       coerceSense (.dict skvs) = Option.none ↔
         pyStrip (pyStr ((dLookup skvs meaningKey).getD (.str []))) = []) ∧
    (∀ (pre post : List PyVal) (sv : PyVal), coerceSense sv = Option.none →
       (pre ++ sv :: post).filterMap coerceSense = (pre ++ post).filterMap coerceSense) ∧
    (∀ (pre post : List PyVal) (ev : PyVal), coerceEntry ev = Option.none →
       (pre ++ ev :: post).filterMap coerceEntry = (pre ++ post).filterMap coerceEntry) ∧
    (∀ (text : List Char) (obj : List (List Char × PyVal)) (r : DictionaryResult),
       asDictionaryResult text obj = .ok r →
       ¬(r.entries = []) ∧ ∀ e ∈ r.entries, ¬(e.senses = [])) ∧
    (∀ (text : List Char) (obj : List (List Char × PyVal)) (l : List PyVal),
       (if pyTruthy ((dLookup obj entriesKey).getD .none) then
          (dLookup obj entriesKey).getD .none else .list []) = .list l →
       (asDictionaryResult text obj =
          .error ⟨noEntriesMsg, some (jsonDumps (.dict obj))⟩ ↔
        l.filterMap coerceEntry = [])) ∧
    asDictionaryResult "word".data
      [(entriesKey, .list [.dict [(posKey, .str "n".data),
        (sensesKey, .list [.dict [(meaningKey, .str [])]])]])] =
      .error ⟨noEntriesMsg, some (jsonDumps (.dict [(entriesKey, .list [.dict [(posKey,
        .str "n".data), (sensesKey, .list [.dict [(meaningKey, .str [])]])]])]))⟩ := by
  refine ⟨?_, ?_, ?_, ?_, ?_, rfl⟩
  · intro skvs
    simp only [coerceSense]
    by_cases hm : (pyStrip (pyStr ((dLookup skvs meaningKey).getD (.str [])))).isEmpty
    · rw [if_pos hm]
      simp [List.isEmpty_iff.mp hm]
    · rw [if_neg hm]
      rw [List.isEmpty_iff] at hm
      simp [hm]
  · intro pre post sv h
    rw [List.filterMap_append, List.filterMap_append, List.filterMap_cons_none h]
  · intro pre post ev h
    rw [List.filterMap_append, List.filterMap_append, List.filterMap_cons_none h]
  · intro text obj r h
    simp only [asDictionaryResult] at h
    split at h
    · split at h
      · simp at h
      · rename_i hne
        injection h with h2
        rw [← h2]
        refine ⟨?_, ?_⟩
        · simp only []
          intro hc
          rw [← List.isEmpty_iff] at hc
          exact hne hc
        · intro e he
          simp only at he
          rcases List.mem_filterMap.mp he with ⟨v, _, hv⟩
          exact (coerceEntry_some v e hv).2.1
    · simp at h
  · intro text obj l hres
    simp only [asDictionaryResult]
    rw [hres]
    by_cases hfm : (l.filterMap coerceEntry).isEmpty
    · simp [hfm, List.isEmpty_iff.mp hfm]
    · have hfm2 : ¬(l.filterMap coerceEntry = []) := by
        rw [← List.isEmpty_iff]
        exact hfm
      simp [hfm, hfm2]

/-- C10: a present-but-falsy non-list `entries` value is treated as an empty
list, so coercion reaches the `no entries` validation error rather than the
`not a list` error; the `not a list` error occurs exactly for a present,
truthy, non-list value. -/
theorem claim_C10 :
    (∀ (text : List Char) (obj : List (List Char × PyVal)) (v : PyVal),
       dLookup obj entriesKey = some v → pyTruthy v = false →
       (∀ xs, ¬(v = PyVal.list xs)) →
       asDictionaryResult text obj =
         .error ⟨noEntriesMsg, some (jsonDumps (.dict obj))⟩) ∧
    (∀ (text : List Char) (obj : List (List Char × PyVal)) (v : PyVal),
       dLookup obj entriesKey = some v →
       ((∃ raw, asDictionaryResult text obj = .error ⟨entriesNotListMsg, raw⟩) ↔
         (pyTruthy v = true ∧ ∀ xs, ¬(v = PyVal.list xs)))) := by
  constructor
  · intro text obj v hlk ht _
    simp only [asDictionaryResult, hlk, Option.getD_some, ht]
    simp
  · intro text obj v hlk
    constructor
    · rintro ⟨raw, hraw⟩
      simp only [asDictionaryResult, hlk, Option.getD_some] at hraw
      by_cases ht : pyTruthy v
      · refine ⟨ht, ?_⟩
        intro xs hxs
        rw [hxs] at hraw ht
        simp only [ht, if_pos] at hraw
        split at hraw
        · injection hraw with he
          injection he with hm hr
          exact absurd hm (by decide)
        · simp at hraw
      · exfalso
        simp only [Bool.not_eq_true] at ht
        simp only [ht] at hraw
        simp at hraw
        obtain ⟨hm, _⟩ := hraw
        exact absurd hm (by decide)
    · rintro ⟨ht, hnl⟩
      refine ⟨some (jsonDumps (.dict obj)), ?_⟩
      simp only [asDictionaryResult, hlk, Option.getD_some, ht]
      cases v with
      | list xs => exact absurd rfl (hnl xs)
      | none => simp
      | bool b => simp
      | int n => simp
      | str s => simp
      | dict kvs => simp

/-- C6 is false as stated: a well-formed envelope that merely lacks the
content field is not an error — both transports silently default the
content to the empty string. -/
theorem claim_C6_counterexample :
    chatContent "\x7b\x7d".data = .ok (.str []) ∧
    generateContent "\x7b\x7d".data = .ok (.str []) ∧
    chatContent "\x7b\"message\": \x7b\x7d\x7d".data = .ok (.str []) := ⟨rfl, rfl, rfl⟩

/-- C6 (amended): an unparseable response body is a transport-level error
carrying the raw body, as is a body whose top-level value is not an object
or (for the structured mode) whose `message` field is present but not an
object; but an envelope that parses to an object and merely lacks the
content field is not an error — the content silently defaults to the empty
string. -/
theorem claim_C6 :
    (∀ raw : List Char, jsonLoads raw = Option.none →
       chatContent raw = .error ⟨invalidEnvelopeMsg, some raw⟩ ∧
       generateContent raw = .error ⟨invalidEnvelopeMsg, some raw⟩) ∧
    (∀ (raw : List Char) (v : PyVal), jsonLoads raw = some v →
       (∀ kvs, ¬(v = PyVal.dict kvs)) →
       chatContent raw = .error ⟨invalidEnvelopeMsg, some raw⟩ ∧
       generateContent raw = .error ⟨invalidEnvelopeMsg, some raw⟩) ∧
    (∀ (raw : List Char) (kvs : List (List Char × PyVal)) (mv : PyVal),
       jsonLoads raw = some (.dict kvs) → dLookup kvs "message".data = some mv →
       (∀ m, ¬(mv = PyVal.dict m)) →
       chatContent raw = .error ⟨invalidEnvelopeMsg, some raw⟩) ∧
    (∀ (raw : List Char) (kvs : List (List Char × PyVal)),
       jsonLoads raw = some (.dict kvs) → dLookup kvs "message".data = Option.none →
       chatContent raw = .ok (.str [])) ∧
    (∀ (raw : List Char) (kvs : List (List Char × PyVal)),
       jsonLoads raw = some (.dict kvs) → dLookup kvs "response".data = Option.none →
       generateContent raw = .ok (.str [])) := by
  refine ⟨?_, ?_, ?_, ?_, ?_⟩
  · intro raw h
    constructor
    · simp only [chatContent, h]
    · simp only [generateContent, h]
  · intro raw v h hnd
    cases v with
    | dict kvs => exact absurd rfl (hnd kvs)
    | none => exact ⟨by simp [chatContent, h], by simp [generateContent, h]⟩
    | bool b => exact ⟨by simp [chatContent, h], by simp [generateContent, h]⟩
    | int n => exact ⟨by simp [chatContent, h], by simp [generateContent, h]⟩
    | str s => exact ⟨by simp [chatContent, h], by simp [generateContent, h]⟩
    | list xs => exact ⟨by simp [chatContent, h], by simp [generateContent, h]⟩
  · intro raw kvs mv h hm hnd
    cases mv with
    | dict m => exact absurd rfl (hnd m)
    | none => simp [chatContent, h, hm]
    | bool b => simp [chatContent, h, hm]
    | int n => simp [chatContent, h, hm]
    | str s => simp [chatContent, h, hm]
    | list xs => simp [chatContent, h, hm]
  · intro raw kvs h hm
    simp [chatContent, h, hm, dLookup]
  · intro raw kvs h hm
    simp [generateContent, h, hm]

/-- C4: the exchange tries the structured transport first; when it succeeds
the flat transport plays no role; on a structured transport error it falls
back exactly once to the flat transport with the system and user prompts
joined by a blank line; a flat success makes the whole exchange proceed with
the flat content (the structured error is not surfaced — the outcome does
not depend on it); a flat failure propagates as the caller's transport
error. -/
theorem claim_C4 :
    ∀ (request : TranslateRequest)
      (chatOracle : String → String → Except OllamaError String)
      (genOracle : String → Except OllamaError String),
      (∀ content, chatOracle (buildSystemPrompt request) (buildUserPrompt request) =
          .ok content →
        translateText "ollama" request chatOracle genOracle =
          (processContent request.mode request.text.data content.data).mapError
            .pipeline) ∧
      (∀ e, chatOracle (buildSystemPrompt request) (buildUserPrompt request) =
          .error e →
        (∀ content,
           genOracle (buildSystemPrompt request ++ "\n\n" ++ buildUserPrompt request) =
             .ok content →
           translateText "ollama" request chatOracle genOracle =
             (processContent request.mode request.text.data content.data).mapError
               .pipeline) ∧
        (∀ e2,
           genOracle (buildSystemPrompt request ++ "\n\n" ++ buildUserPrompt request) =
             .error e2 →
           translateText "ollama" request chatOracle genOracle =
             .error (.transport e2))) := by
  intro request chatOracle genOracle
  constructor
  · intro content hchat
    simp only [translateText, hchat]
    rw [if_neg (by simp)]
  · intro e hchat
    constructor
    · intro content hgen
      simp only [translateText, hchat, hgen]
      rw [if_neg (by simp)]
    · intro e2 hgen
      simp only [translateText, hchat, hgen]
      rw [if_neg (by simp)]

/-- Does `pat` occur as a contiguous substring of the text? -/
def hasSub (pat : List Char) : List Char → Bool
  | [] => List.isPrefixOf pat []
  | c :: t => List.isPrefixOf pat (c :: t) || hasSub pat t

theorem hasSub_append_right (pat a b : List Char) (h : hasSub pat b = true) :
    hasSub pat (a ++ b) = true := by
  induction a with
  | nil => exact h
  | cons c t ih =>
    rw [List.cons_append, hasSub, ih, Bool.or_true]

/-- A concrete dictionary-mode request with digit-free tone fields, used to
inspect the built prompt. -/
def dictRequest0 : TranslateRequest :=
  { text := "run", source_lang := "auto", target_lang := "FR", mode := .dictionary,
    tone := "neutral", tone_instructions := Option.none, explain_lang := "EN",
    rerun := Option.none }

theorem pyReprEscChar_mem (q c x : Char) (hc : 32 ≤ c.toNat ∧ c.toNat ≤ 126)
    (hx : x ∈ pyReprEscChar q c) :
    x = c ∨ x = backslashChar ∨ x = q := by
  rw [pyReprEscChar] at hx
  by_cases hb : c = backslashChar
  · rw [if_pos hb] at hx
    simp at hx
    exact Or.inr (Or.inl hx)
  · rw [if_neg hb] at hx
    by_cases hq : c = q
    · rw [if_pos hq] at hx
      simp at hx
      rcases hx with rfl | rfl
      · exact Or.inr (Or.inl rfl)
      · exact Or.inr (Or.inr rfl)
    · rw [if_neg hq] at hx
      have h9 : ¬(c.toNat = 9) := by omega
      have h10 : ¬(c.toNat = 10) := by omega
      have h13 : ¬(c.toNat = 13) := by omega
      rw [if_neg h9, if_neg h10, if_neg h13, if_pos hc] at hx
      simp at hx
      exact Or.inl hx

/-- Every character of the repr of a printable-ASCII string is a character
of the string itself, a backslash, or one of the two quote characters. -/
theorem pyReprString_mem (s : List Char) (x : Char)
    (hs : ∀ c ∈ s, 32 ≤ c.toNat ∧ c.toNat ≤ 126)
    (hx : x ∈ pyReprString s) :
    x ∈ s ∨ x = backslashChar ∨ x = squoteChar ∨ x = quoteChar := by
  have hq : pyReprQuoteChar s = squoteChar ∨ pyReprQuoteChar s = quoteChar := by
    rw [pyReprQuoteChar]
    by_cases h : s.contains squoteChar ∧ ¬(s.contains quoteChar)
    · rw [if_pos h]
      exact Or.inr rfl
    · rw [if_neg h]
      exact Or.inl rfl
  have hqx : ∀ y : Char, y = pyReprQuoteChar s → y = squoteChar ∨ y = quoteChar := by
    intro y hy
    rcases hq with hh | hh
    · exact Or.inl (hy.trans hh)
    · exact Or.inr (hy.trans hh)
  rw [pyReprString] at hx
  rcases List.mem_append.mp hx with hx2 | hx2
  · rcases List.mem_cons.mp hx2 with hx3 | hx3
    · rcases hqx x hx3 with h | h
      · exact Or.inr (Or.inr (Or.inl h))
      · exact Or.inr (Or.inr (Or.inr h))
    · rcases List.mem_flatten.mp hx3 with ⟨l, hl, hxl⟩
      rcases List.mem_map.mp hl with ⟨c, hcs, hcl⟩
      rw [← hcl] at hxl
      rcases pyReprEscChar_mem _ c x (hs c hcs) hxl with rfl | h | h
      · exact Or.inl hcs
      · exact Or.inr (Or.inl h)
      · rcases hqx x h with h2 | h2
        · exact Or.inr (Or.inr (Or.inl h2))
        · exact Or.inr (Or.inr (Or.inr h2))
  · have hx3 : x = pyReprQuoteChar s := by simpa using hx2
    rcases hqx x hx3 with h | h
    · exact Or.inr (Or.inr (Or.inl h))
    · exact Or.inr (Or.inr (Or.inr h))

set_option maxRecDepth 20000 in
/-- C9 is false as stated: the dictionary system prompt contains no digit
`2` and no digit `3` anywhere, so it cannot state a "2 parts-of-speech /
3 senses" cap. -/
theorem claim_C9_counterexample :
    ¬(Char.ofNat 50 ∈ (buildSystemPrompt dictRequest0).data) ∧
    ¬(Char.ofNat 51 ∈ (buildSystemPrompt dictRequest0).data) := by decide

set_option maxRecDepth 20000 in
/-- C9 (amended): for every dictionary-mode request the system prompt embeds
the dictionary JSON key schema (`term`, `entries`, `pos`, `senses`,
`meaning`, `example_source`, `example_target`, `usage_notes`), but it states
no part-of-speech or sense cap: whenever the caller's tone text is free of
the digits `2`/`3` and the tone-instruction text is printable ASCII free of
those digits (so its repr interpolation introduces no hex escapes), the
whole prompt contains neither digit; and the coercer enforces no limit — a
parsed object with three entries of four senses each is retained in full. -/
theorem claim_C9 :
    (∀ request : TranslateRequest, request.mode = .dictionary →
       hasSub termKey (buildSystemPrompt request).data = true ∧
       hasSub entriesKey (buildSystemPrompt request).data = true ∧
       hasSub posKey (buildSystemPrompt request).data = true ∧
       hasSub sensesKey (buildSystemPrompt request).data = true ∧
       hasSub meaningKey (buildSystemPrompt request).data = true ∧
       hasSub exampleSourceKey (buildSystemPrompt request).data = true ∧
       hasSub exampleTargetKey (buildSystemPrompt request).data = true ∧
       hasSub usageNotesKey (buildSystemPrompt request).data = true) ∧
    (∀ request : TranslateRequest, request.mode = .dictionary →
       (∀ c ∈ request.tone.data, ¬(c = Char.ofNat 50) ∧ ¬(c = Char.ofNat 51)) →
       (∀ ti, request.tone_instructions = some ti →
          ∀ c ∈ ti.data, (32 ≤ c.toNat ∧ c.toNat ≤ 126) ∧
            ¬(c = Char.ofNat 50) ∧ ¬(c = Char.ofNat 51)) →
       ∀ c ∈ (buildSystemPrompt request).data,
         ¬(c = Char.ofNat 50) ∧ ¬(c = Char.ofNat 51)) ∧
    (∃ r, asDictionaryResult "w".data
        [(entriesKey, .list [
          .dict [(posKey, .str "n".data), (sensesKey, .list [
            .dict [(meaningKey, .str "m1".data)], .dict [(meaningKey, .str "m2".data)],
            .dict [(meaningKey, .str "m3".data)], .dict [(meaningKey, .str "m4".data)]])],
          .dict [(posKey, .str "v".data), (sensesKey, .list [
            .dict [(meaningKey, .str "m1".data)], .dict [(meaningKey, .str "m2".data)],
            .dict [(meaningKey, .str "m3".data)], .dict [(meaningKey, .str "m4".data)]])],
          .dict [(posKey, .str "adj".data), (sensesKey, .list [
            .dict [(meaningKey, .str "m1".data)], .dict [(meaningKey, .str "m2".data)],
            .dict [(meaningKey, .str "m3".data)], .dict [(meaningKey, .str "m4".data)]])]])] =
        .ok r ∧
      r.entries.length = 3 ∧ ∀ e ∈ r.entries, e.senses.length = 4) := by
  refine ⟨?_, ?_, ⟨_, rfl, rfl, by decide⟩⟩
  · intro request hmode
    have hbuild : buildSystemPrompt request =
        basePrompt ++ "\n" ++ toneLineOf request ++ "\n" ++ dictSchemaPrompt := by
      rw [buildSystemPrompt, hmode]
    rw [hbuild]
    simp only [String.data_append, List.append_assoc]
    refine ⟨?_, ?_, ?_, ?_, ?_, ?_, ?_, ?_⟩
    all_goals
      apply hasSub_append_right
      apply hasSub_append_right
      apply hasSub_append_right
      apply hasSub_append_right
      decide
  · intro request hmode htone hinstr c hc
    have hbuild : buildSystemPrompt request =
        basePrompt ++ "\n" ++ toneLineOf request ++ "\n" ++ dictSchemaPrompt := by
      rw [buildSystemPrompt, hmode]
    rw [hbuild] at hc
    simp only [String.data_append, List.mem_append] at hc
    rcases hc with (((hc | hc) | hc) | hc) | hc
    · exact (by decide : ∀ x ∈ basePrompt.data,
        ¬(x = Char.ofNat 50) ∧ ¬(x = Char.ofNat 51)) c hc
    · exact (by decide : ∀ x ∈ ("\n" : String).data,
        ¬(x = Char.ofNat 50) ∧ ¬(x = Char.ofNat 51)) c hc
    · rcases hti : request.tone_instructions with _ | ti
      · simp only [toneLineOf, hti] at hc
        simp only [String.data_append, List.mem_append] at hc
        rcases hc with (hc | hc) | hc
        · exact (by decide : ∀ x ∈ ("Tone/style: " : String).data,
            ¬(x = Char.ofNat 50) ∧ ¬(x = Char.ofNat 51)) c hc
        · exact htone c hc
        · exact (by decide : ∀ x ∈ ("." : String).data,
            ¬(x = Char.ofNat 50) ∧ ¬(x = Char.ofNat 51)) c hc
      · simp only [toneLineOf, hti] at hc
        by_cases hempty : ti = ""
        · rw [if_pos hempty] at hc
          simp only [String.data_append, List.mem_append] at hc
          rcases hc with (hc | hc) | hc
          · exact (by decide : ∀ x ∈ ("Tone/style: " : String).data,
              ¬(x = Char.ofNat 50) ∧ ¬(x = Char.ofNat 51)) c hc
          · exact htone c hc
          · exact (by decide : ∀ x ∈ ("." : String).data,
              ¬(x = Char.ofNat 50) ∧ ¬(x = Char.ofNat 51)) c hc
        · rw [if_neg hempty] at hc
          simp only [String.data_append, List.mem_append] at hc
          rcases hc with ((((hc | hc) | hc) | hc) | hc) | hc
          · exact (by decide : ∀ x ∈ ("Tone/style: " : String).data,
              ¬(x = Char.ofNat 50) ∧ ¬(x = Char.ofNat 51)) c hc
          · exact htone c hc
          · exact (by decide : ∀ x ∈ ("." : String).data,
              ¬(x = Char.ofNat 50) ∧ ¬(x = Char.ofNat 51)) c hc
          · exact (by decide : ∀ x ∈ (" Additional instructions: " : String).data,
              ¬(x = Char.ofNat 50) ∧ ¬(x = Char.ofNat 51)) c hc
          · have hs : ∀ x ∈ ti.data, 32 ≤ x.toNat ∧ x.toNat ≤ 126 :=
              fun x hx => (hinstr ti hti x hx).1
            rcases pyReprString_mem ti.data c hs hc with hin | h | h | h
            · exact (hinstr ti hti c hin).2
            · rw [h]
              exact (by decide)
            · rw [h]
              exact (by decide)
            · rw [h]
              exact (by decide)
          · exact (by decide : ∀ x ∈ ("." : String).data,
              ¬(x = Char.ofNat 50) ∧ ¬(x = Char.ofNat 51)) c hc
    · exact (by decide : ∀ x ∈ ("\n" : String).data,
        ¬(x = Char.ofNat 50) ∧ ¬(x = Char.ofNat 51)) c hc
    · exact (by decide : ∀ x ∈ dictSchemaPrompt.data,
        ¬(x = Char.ofNat 50) ∧ ¬(x = Char.ofNat 51)) c hc

/-- A retained sense, used by witness statements. -/
def sense0 : DictionarySense :=
  { meaning := "m".data, example_source := Option.none, example_target := Option.none,
    usage_notes := Option.none }

/-- A retained entry, used by witness statements. -/
def entry0 : DictionaryEntry := { pos := Option.none, senses := [sense0] }

/-- A coerced translate result, used by witness statements. -/
def tres0 : TranslateResult :=
  { translation := "ok".data, alternatives := Option.none, notes := Option.none,
    detected_source_lang := Option.none }

/-- A coerced translate result with present-and-empty notes, used by witness
statements. -/
def tres1 : TranslateResult :=
  { translation := "hi".data, alternatives := Option.none, notes := some [],
    detected_source_lang := Option.none }

/-- A dictionary result with one entry, used by witness statements. -/
def dres0 : DictionaryResult := { term := "word".data, entries := [entry0] }

theorem claim_C1_witness :
    extractFirstJsonObject ("Sure! ".data ++
        renderJson (.obj (.cons "translation".data
          (.str "say \"hi\" \x7bnow\x7d".data) .nil)) ++ " thanks.".data) =
      .ok (renderJson (.obj (.cons "translation".data
        (.str "say \"hi\" \x7bnow\x7d".data) .nil))) ∧
    extractFirstJsonObject "  \x7bx\x7d ".data = .ok (pyStrip "  \x7bx\x7d ".data) :=
  ⟨claim_C1.1 _ _ _ (by decide) (by decide), claim_C1.2 _ (by decide) (by decide)⟩

theorem claim_C2_witness :
    coerceSense (.dict [(meaningKey, PyVal.str [spaceChar])]) = Option.none ∧
    ([PyVal.none] ++ PyVal.dict [(meaningKey, PyVal.str [])] ::
        ([] : List PyVal)).filterMap coerceSense =
      ([PyVal.none] ++ ([] : List PyVal)).filterMap coerceSense ∧
    (¬(dres0.entries = []) ∧ ∀ e ∈ dres0.entries, ¬(e.senses = [])) ∧
    (asDictionaryResult "word".data [(entriesKey, .list [PyVal.bool true])] =
        .error ⟨noEntriesMsg, some (jsonDumps (.dict
          [(entriesKey, .list [PyVal.bool true])]))⟩ ↔
      ([PyVal.bool true] : List PyVal).filterMap coerceEntry = []) :=
  ⟨(claim_C2.1 _).mpr (by decide),
   claim_C2.2.1 [PyVal.none] [] _ rfl,
   claim_C2.2.2.2.1 "word".data
     [(entriesKey, .list [.dict [(sensesKey, .list [.dict [(meaningKey,
       .str "m".data)]])]])] dres0 rfl,
   claim_C2.2.2.2.2.1 "word".data [(entriesKey, .list [PyVal.bool true])]
     [PyVal.bool true] rfl⟩

theorem claim_C3_witness :
    (∃ e, asTranslateResult [(translationKey, PyVal.str [spaceChar])] = .error e) ∧
    (tres0.translation =
        pyStrip (pyStr ((dLookup [(translationKey, PyVal.str "ok".data)]
          translationKey).getD (.str []))) ∧
      tres0.alternatives =
        coerceStrList ((dLookup [(translationKey, PyVal.str "ok".data)]
          alternativesKey).getD .none)) ∧
    coerceStrList (PyVal.str "not a list".data) = Option.none :=
  ⟨(claim_C3.1 _).mpr (Or.inr ⟨[spaceChar], rfl, by decide⟩),
   claim_C3.2.1 [(translationKey, PyVal.str "ok".data)] tres0 rfl,
   claim_C3.2.2.1 (PyVal.str "not a list".data) (fun xs h => nomatch h)⟩

theorem claim_C4_witness :
    translateText "ollama" dictRequest0
        (fun _ _ => Except.error ⟨"down".data, Option.none⟩)
        (fun _ => Except.ok "flat content") =
      (processContent dictRequest0.mode dictRequest0.text.data
        "flat content".data).mapError .pipeline ∧
    translateText "ollama" dictRequest0
        (fun _ _ => Except.error ⟨"down".data, Option.none⟩)
        (fun _ => Except.error ⟨"down too".data, Option.none⟩) =
      .error (.transport ⟨"down too".data, Option.none⟩) :=
  ⟨((claim_C4 dictRequest0 (fun _ _ => Except.error ⟨"down".data, Option.none⟩)
      (fun _ => Except.ok "flat content")).2 ⟨"down".data, Option.none⟩ rfl).1
      "flat content" rfl,
   ((claim_C4 dictRequest0 (fun _ _ => Except.error ⟨"down".data, Option.none⟩)
      (fun _ => Except.error ⟨"down too".data, Option.none⟩)).2
      ⟨"down".data, Option.none⟩ rfl).2 ⟨"down too".data, Option.none⟩ rfl⟩

theorem claim_C5_witness :
    (⟨notFoundMsg, some "nope".data⟩ : PRPError).rawResponse = some "nope".data ∧
    (⟨missingTranslationMsg, some (jsonDumps (.dict [(translationKey, PyVal.str [])]))⟩ :
      PRPError).rawResponse =
        some (jsonDumps (.dict [(translationKey, PyVal.str [])])) ∧
    (⟨invalidEnvelopeMsg, some "bad".data⟩ : OllamaError).rawResponse =
      some "bad".data ∧
    (∃ e, httpPostJson (.httpError 500 (some "body".data)) = .error e ∧
      e.rawResponse = some ((some "body".data).getD [])) ∧
    (∃ e, httpPostJson (.urlError "host down".data) = .error e ∧
      e.rawResponse = Option.none) :=
  ⟨claim_C5.1 "nope".data ⟨notFoundMsg, some "nope".data⟩ rfl,
   claim_C5.2.1 [(translationKey, PyVal.str [])]
     ⟨missingTranslationMsg, some (jsonDumps (.dict [(translationKey, PyVal.str [])]))⟩
     rfl,
   claim_C5.2.2.2.1 "bad".data ⟨invalidEnvelopeMsg, some "bad".data⟩ rfl,
   claim_C5.2.2.2.2.2.1 500 (some "body".data),
   claim_C5.2.2.2.2.2.2 "host down".data⟩

theorem claim_C6_witness :
    (chatContent "oops".data = .error ⟨invalidEnvelopeMsg, some "oops".data⟩ ∧
     generateContent "oops".data = .error ⟨invalidEnvelopeMsg, some "oops".data⟩) ∧
    chatContent "\x7b\"a\": 1\x7d".data = .ok (.str []) :=
  ⟨claim_C6.1 "oops".data rfl,
   claim_C6.2.2.2.1 "\x7b\"a\": 1\x7d".data [("a".data, PyVal.int 1)] rfl rfl⟩

theorem claim_C7_witness :
    (∀ e ∈ dres0.entries, ¬(e.pos = some []) ∧
      ∀ s ∈ e.senses, ¬(s.meaning = []) ∧ ¬(s.example_source = some []) ∧
        ¬(s.example_target = some []) ∧ ¬(s.usage_notes = some [])) ∧
    (¬(tres1.translation = []) ∧
     (tres1.notes = some [] →
       ∃ s, dLookup [(translationKey, PyVal.str "hi".data),
           (notesKey, PyVal.str [spaceChar])] notesKey = some (.str s) ∧
         ¬(s = []) ∧ pyStrip s = []) ∧
     (tres1.detected_source_lang = some [] →
       ∃ s, dLookup [(translationKey, PyVal.str "hi".data),
           (notesKey, PyVal.str [spaceChar])] detectedKey = some (.str s) ∧
         ¬(s = []) ∧ pyStrip s = [])) :=
  ⟨claim_C7.1 "word".data [(entriesKey, .list [.dict [(sensesKey, .list [.dict
      [(meaningKey, .str "m".data)]])]])] dres0 rfl,
   claim_C7.2 [(translationKey, PyVal.str "hi".data),
     (notesKey, PyVal.str [spaceChar])] tres1 rfl⟩

theorem claim_C8_witness :
    extractFirstJsonObject "nothing here".data =
      .error ⟨notFoundMsg, some "nothing here".data⟩ ∧
    (((⟨untermMsg, some "a \x7b b".data⟩ : PRPError) =
        ⟨notFoundMsg, some "a \x7b b".data⟩ ∧
      ∀ c ∈ pyStrip "a \x7b b".data, ¬(c = lbraceChar)) ∨
     ((⟨untermMsg, some "a \x7b b".data⟩ : PRPError) =
        ⟨untermMsg, some "a \x7b b".data⟩ ∧
      ∃ tail, dropToBrace (pyStrip "a \x7b b".data) = some tail ∧
        scanObj tail 0 false false = none)) :=
  ⟨claim_C8.1 "nothing here".data (by decide),
   claim_C8.2.1 "a \x7b b".data ⟨untermMsg, some "a \x7b b".data⟩ rfl⟩

set_option maxRecDepth 20000 in
theorem claim_C9_witness :
    (hasSub termKey (buildSystemPrompt dictRequest0).data = true ∧
     hasSub entriesKey (buildSystemPrompt dictRequest0).data = true ∧
     hasSub posKey (buildSystemPrompt dictRequest0).data = true ∧
     hasSub sensesKey (buildSystemPrompt dictRequest0).data = true ∧
     hasSub meaningKey (buildSystemPrompt dictRequest0).data = true ∧
     hasSub exampleSourceKey (buildSystemPrompt dictRequest0).data = true ∧
     hasSub exampleTargetKey (buildSystemPrompt dictRequest0).data = true ∧
     hasSub usageNotesKey (buildSystemPrompt dictRequest0).data = true) ∧
    (∀ c ∈ (buildSystemPrompt { dictRequest0 with
        tone_instructions := some "don't rush" } : String).data,
      ¬(c = Char.ofNat 50) ∧ ¬(c = Char.ofNat 51)) :=
  ⟨claim_C9.1 dictRequest0 rfl,
   claim_C9.2.1 { dictRequest0 with tone_instructions := some "don't rush" } rfl
     (by decide)
     (by
       intro ti hti
       injection hti with h
       rw [← h]
       decide)⟩

theorem claim_C10_witness :
    asDictionaryResult "w".data [(entriesKey, PyVal.none)] =
      .error ⟨noEntriesMsg, some (jsonDumps (.dict [(entriesKey, PyVal.none)]))⟩ ∧
    (∃ raw, asDictionaryResult "w".data [(entriesKey, PyVal.str "x".data)] =
      .error ⟨entriesNotListMsg, raw⟩) :=
  ⟨claim_C10.1 "w".data [(entriesKey, PyVal.none)] PyVal.none rfl rfl
     (fun xs h => nomatch h),
   (claim_C10.2 "w".data [(entriesKey, PyVal.str "x".data)] (PyVal.str "x".data)
     rfl).mpr ⟨rfl, fun xs h => nomatch h⟩⟩
